import Mathlib

/-!
# ElasticFusion `ROSBagReader.cpp`: a shallow embedding

The unit `GUI/src/Tools/ROSBagReader.cpp` reads a recorded sensor log (a ROS bag),
extracts the camera calibration, ingests the depth and colour image records and
serves them frame by frame through a cursor.

Modelling conventions.

* A `rosbag::View` is the ordered list of the messages it yields to `BOOST_FOREACH`.
* `m.instantiate<T>()` yields a null pointer when the stored message is not a `T`;
  the embedding returns `none` there.
* The `width`, `height` and `step` fields of the messages are `uint32_t`; a product of two
  of them is taken modulo `2^32`, and a value stored into an `int` is its two's-complement
  reading (`toInt32`). Arithmetic on `int`s wraps around in the same way, as the built
  code does. The cursor and the frame count are `Int`s standing for C++ `int`s; sizes
  and counts of containers are `Nat`s.
* `double` and `float` values are only copied by this unit, never computed with:
  a `double` is its bit pattern, a `float` is the four payload bytes it occupies.
  The per-element map of `cv::Mat::convertTo(_, CV_16UC1, 1000)` belongs to OpenCV and
  is a parameter `cvt` of the frame conversion.
* A byte (or element) of a buffer is `none` while its value is indeterminate
  (freshly allocated storage, or a read past the end of a payload) and `some b` otherwise.
* `exit(0)` after a diagnostic and the `std::out_of_range` thrown by `std::vector::at`
  are outcomes of their own; both carry the object state at the point where control left.
-/

namespace ElasticFusion

/-! ## Machine integers -/

/-- The value an `int` takes when an unsigned 32-bit value is stored into it, and more
generally the two's-complement reading of a natural number modulo `2^32`. -/
def toInt32 (n : Nat) : Int :=
  if n % 2 ^ 32 < 2 ^ 31 then ((n % 2 ^ 32 : Nat) : Int)
  else ((n % 2 ^ 32 : Nat) : Int) - 2 ^ 32

/-- The product of two `uint32_t` values. -/
def uint32Mul (a b : Nat) : Nat := (a * b) % 2 ^ 32

/-- The integers an `int` can hold. -/
def isInt32 (z : Int) : Bool := decide (-2147483648 ≤ z ∧ z < 2147483648)

/-- The `int` that two's-complement arithmetic gives for the integer `z`. -/
def wrapInt32 (z : Int) : Int := (z + 2147483648) % 4294967296 - 2147483648

/-! ## Messages -/

/-- Bit pattern of a C++ `double`; the unit copies such values and does nothing else with them. -/
abbrev Double := Nat

/-- The four payload bytes of a 32-bit float, in memory order. -/
abbrev Float32 := List Nat

/-- The fields of `sensor_msgs::CameraInfo` that the unit reads. -/
structure CameraInfo where
  width : Nat
  height : Nat
  K : Fin 9 → Double

/-- The fields of `sensor_msgs::Image` that the unit reads; `stamp` is the value of
`header.stamp.toSec()` as it is stored into the reader's `timestamp` member. -/
structure Image where
  stamp : Int
  height : Nat
  width : Nat
  encoding : String
  step : Nat
  data : List Nat
deriving DecidableEq

/-- What a stored message deserialises to. -/
inductive Payload where
  | image (img : Image)
  | cameraInfo (info : CameraInfo)
  | other

/-- One `rosbag::MessageInstance`: the recorded topic name and the stored message. -/
structure MessageInstance where
  topic : String
  payload : Payload

/-- Models `m.getTopic()`. -/
def MessageInstance.getTopic (m : MessageInstance) : String := m.topic

/-- Models `m.instantiate<sensor_msgs::Image>()`; `none` is the null pointer. -/
def MessageInstance.instantiateImage (m : MessageInstance) : Option Image :=
  match m.payload with
  | .image img => some img
  | _ => none

/-- Models `m.instantiate<sensor_msgs::CameraInfo>()`; `none` is the null pointer. -/
def MessageInstance.instantiateCameraInfo (m : MessageInstance) : Option CameraInfo :=
  match m.payload with
  | .cameraInfo info => some info
  | _ => none

/-- The depth topic of `loadBag` (line 64). -/
def image_d_topic : String := "/camera_1112170110/depth_registered/sw_registered/image_rect"

/-- The colour topic of `loadBag` (line 65). -/
def image_rgb_topic : String := "/camera_1112170110/rgb/image_rect_color"

/-- The calibration topic of `rosGetParams` and `loadBag` (lines 33 and 66). -/
def cam_info_topic : String := "/camera_1112170110/rgb/camera_info"

/-- The test `m.getTopic() == t || ("/" + m.getTopic() == t)` of lines 40, 77, 85 and 93. -/
def topicMatches (m : MessageInstance) (t : String) : Bool :=
  m.getTopic == t || ("/" ++ m.getTopic) == t

/-! ## File type -/

/-- Lines 21-26. A `std::string` is the list of its characters; `std::equal` over the
reversed ranges compares `ending` with the last `ending.size()` characters of `value`. -/
def isRosBag (value : String) : Bool :=
  let ending := ".bag"
  if ending.length > value.length then false
  else ending.data.reverse == value.data.reverse.take ending.length

/-! ## Outcomes -/

/-- How a call leaves: by returning, by the exception of `std::vector::at`, or by
`exit(0)` after printing a diagnostic. Each carries the state at that point. -/
inductive Outcome (σ : Type) where
  | ok (s : σ)
  | threw (s : σ)
  | exited (diagnostic : String) (s : σ)

/-- The state an outcome carries. -/
def Outcome.state {σ : Type} : Outcome σ → σ
  | .ok s => s
  | .threw s => s
  | .exited _ s => s

/-- Predicate of the outcomes in which the call does not return. -/
def Outcome.isFatal {σ : Type} : Outcome σ → Bool
  | .ok _ => false
  | .threw _ => true
  | .exited _ _ => true

/-! ## `rosGetParams` -/

/-- The six reference parameters of `rosGetParams` after it has returned. -/
structure CameraParams where
  pixels_width : Int
  pixels_height : Int
  fx : Double
  fy : Double
  cx : Double
  cy : Double

/-- Lines 28-56. The argument is the view over the calibration topic, in iteration
order. `Except.error d` stands for printing `d` and calling `exit(0)`. The `uint32_t`
fields `width` and `height` are stored into `int` references (lines 43-44). -/
def rosGetParams : List MessageInstance → Except String CameraParams
  | [] => .error "Did not find camera info!"
  | m :: view =>
    if topicMatches m cam_info_topic then
      match m.instantiateCameraInfo with
      | some cam_info =>
        .ok { pixels_width := toInt32 cam_info.width
              pixels_height := toInt32 cam_info.height
              fx := cam_info.K 0
              fy := cam_info.K 4
              cx := cam_info.K 2
              cy := cam_info.K 5 }
      | none => rosGetParams view
    else rosGetParams view

/-! ## `loadBag` -/

/-- The struct `ROSRgbdData` as the unit uses it. -/
structure ROSRgbdData where
  images_rgb : List Image
  images_d : List Image
  cam_info : Option CameraInfo

/-- The body of the `BOOST_FOREACH` of `loadBag` (lines 76-100) for one message. -/
def loadBagBody (log_rgbd_data : ROSRgbdData) (m : MessageInstance) : ROSRgbdData :=
  let log1 :=
    if topicMatches m image_d_topic then
      match m.instantiateImage with
      | some l_img => { log_rgbd_data with images_d := log_rgbd_data.images_d ++ [l_img] }
      | none => log_rgbd_data
    else log_rgbd_data
  let log2 :=
    if topicMatches m image_rgb_topic then
      match m.instantiateImage with
      | some r_img => { log1 with images_rgb := log1.images_rgb ++ [r_img] }
      | none => log1
    else log1
  if topicMatches m cam_info_topic then
    match m.instantiateCameraInfo with
    | some r_info => { log2 with cam_info := some r_info }
    | none => log2
  else log2

/-- Lines 58-104. The first argument is the view over the three topics, in iteration
order; the second is the struct passed by reference, which the loop extends. -/
def loadBag (view : List MessageInstance) (log_rgbd_data : ROSRgbdData) : ROSRgbdData :=
  view.foldl loadBagBody log_rgbd_data

/-! ## The reader object -/

/-- The members of a `ROSBagReader` that the unit reads or writes. The depth buffer is
seen through the `depth` pointer, as 16-bit elements; the colour buffer through `rgb`,
as bytes. `depthSize` and `imageSize` are written before each use inside `getCore` and
are local values there. `depthReadBuffer`, `imageReadBuffer` and `fp` are allocated,
released and never used in between; they are left out. -/
structure ROSBagReader where
  file : String
  flipColors : Bool
  numPixels : Nat
  log_rgbd_data : ROSRgbdData
  currentFrame : Int
  numFrames : Int
  timestamp : Int
  decompressionBufferDepth : List (Option Nat)
  decompressionBufferImage : List (Option Nat)

/-- Lines 107-131, the constructor `ROSBagReader::ROSBagReader`. `numPixels` and
`timestamp` are set by the base-class constructor, which lives outside the unit; they are
taken as given. -/
def ROSBagReader.construct (view : List MessageInstance) (file : String) (flipColors : Bool)
    (numPixels : Nat) (timestamp : Int) : ROSBagReader :=
  let log_rgbd_data := loadBag view { images_rgb := [], images_d := [], cam_info := none }
  { file := file
    flipColors := flipColors
    numPixels := numPixels
    log_rgbd_data := log_rgbd_data
    currentFrame := 0
    numFrames := log_rgbd_data.images_rgb.length
    timestamp := timestamp
    decompressionBufferDepth := List.replicate numPixels none
    decompressionBufferImage := List.replicate (numPixels * 3) none }

/-- Models `v.at(i)` for an `int` index: a negative index converts to a huge unsigned
one, so every index outside `[0, v.size())` throws; `none` is the throw. -/
def vectorAt {α : Type} (v : List α) (i : Int) : Option α :=
  if 0 ≤ i then v[i.toNat]? else none

/-- A counted loop `for (i = start; i < stop; i += stride) body`, run for at most
`fuel` iterations from `i`. -/
def forLoop {σ : Type} (stop stride : Nat) (body : Nat → σ → σ) : Nat → Nat → σ → σ
  | 0, _, s => s
  | fuel + 1, i, s =>
    if i < stop then forLoop stop stride body fuel (i + stride) (body i s) else s

/-- Models `memcpy(dst, src, n)` on buffers of elements: the first `n` elements of
`dst` are overwritten by those of `src`; an element read past the end of `src` is
indeterminate. -/
def memcpy {α : Type} (dst src : List (Option α)) (n : Nat) : List (Option α) :=
  (List.range n).map (fun k => src.getD k none) ++ dst.drop n

/-- Models `*((float*) &data[0] + k)`: the four bytes from offset `4 * k`;
indeterminate when they do not all lie inside the payload. -/
def readFloat (data : List Nat) (k : Nat) : Option Float32 :=
  if 4 * k + 4 ≤ data.length then some ((data.drop (4 * k)).take 4) else none

/-- Lines 165-170: a `rows0 x cols0` matrix of floats, freshly allocated, into which the
double loop stores pixel `(i, j)` of the record at row-major offset `i * cols0 + j`.
A store past the end of the matrix is undefined in C++ and has no effect here. -/
def fillDepth (rows0 cols0 : Nat) (d : Image) : List (Option Float32) :=
  forLoop d.height 1
    (fun i cv_depth =>
      forLoop d.width 1
        (fun j cv_depth => cv_depth.set (i * cols0 + j) (readFloat d.data (i * d.width + j)))
        d.width 0 cv_depth)
    d.height 0 (List.replicate (rows0 * cols0) none)

/-- Line 172: `convertTo` applies the element map to every element of the matrix. -/
def convertTo (cvt : Float32 → Nat) (cv_depth : List (Option Float32)) : List (Option Nat) :=
  cv_depth.map (Option.map cvt)

/-- The body of the flip loop, line 198: `std::swap(rgb[i + 0], rgb[i + 2])`. -/
def swapBody (i : Nat) (rgb : List (Option Nat)) : List (Option Nat) :=
  (rgb.set (i + 0) (rgb.getD (i + 2) none)).set (i + 2) (rgb.getD (i + 0) none)

/-- Lines 196-199: the flip loop over a colour buffer. Its bound is
`Resolution::getInstance().numPixels() * 3`, the value the member `numPixels` was
initialised from; `numPixels` iterations exhaust it. -/
def flipLoop (numPixels : Nat) (rgb : List (Option Nat)) : List (Option Nat) :=
  forLoop (numPixels * 3) 3 swapBody numPixels 0 rgb

/-- Lines 154-203. `depthSize` and `imageSize` are `int32_t` members that receive the
`uint32_t` product `step * height`; they are compared with the `int` products
`numPixels * 4` and `numPixels * 3`. Reads past the end of a payload and stores past the
end of the matrix are undefined in C++; here the former give indeterminate bytes and the
latter have no effect, and the control flow is that of the explicit tests. -/
def ROSBagReader.getCore (cvt : Float32 → Nat) (s : ROSBagReader) : Outcome ROSBagReader :=
  match vectorAt s.log_rgbd_data.images_rgb s.currentFrame with
  | none => .threw s
  | some rgbMsg =>
    let s1 := { s with timestamp := rgbMsg.stamp }
    match vectorAt s.log_rgbd_data.images_d s.currentFrame with
    | none => .threw s1
    | some dMsg =>
      let depthSize := toInt32 (uint32Mul dMsg.step dMsg.height)
      let imageSize := toInt32 (uint32Mul rgbMsg.step rgbMsg.height)
      if depthSize = toInt32 (s.numPixels * 4) ∧ dMsg.encoding = "32FC1" then
        match vectorAt s.log_rgbd_data.images_d 0 with
        | none => .threw s1
        | some d0 =>
          let cv_depth := fillDepth d0.height d0.width dMsg
          let cv_depth_out := convertTo cvt cv_depth
          let s2 := { s1 with
            decompressionBufferDepth := memcpy s1.decompressionBufferDepth cv_depth_out s.numPixels }
          if imageSize = toInt32 (s.numPixels * 3) then
            let s3 := { s2 with
              decompressionBufferImage :=
                memcpy s2.decompressionBufferImage (rgbMsg.data.map some) (s.numPixels * 3) }
            let s4 :=
              if s.flipColors then
                { s3 with decompressionBufferImage := flipLoop s.numPixels s3.decompressionBufferImage }
              else s3
            .ok { s4 with currentFrame := s4.currentFrame + 1 }
          else .exited "Am not expecting compressed images in ROSBagReader.cpp" s2
      else .exited "Am expecting 32FC1 encoded depth image in ROSBagReader.cpp" s1

/-- Lines 143-147. -/
def ROSBagReader.getBack (cvt : Float32 → Nat) (s : ROSBagReader) : Outcome ROSBagReader :=
  ROSBagReader.getCore cvt { s with currentFrame := s.numFrames }

/-- Lines 149-152. -/
def ROSBagReader.getNext (cvt : Float32 → Nat) (s : ROSBagReader) : Outcome ROSBagReader :=
  ROSBagReader.getCore cvt s

/-- Lines 205-208: prints a notice and returns. -/
def ROSBagReader.fastForward (s : ROSBagReader) (_frame : Int) : Outcome ROSBagReader :=
  .ok s

/-- Lines 210-213. -/
def ROSBagReader.getNumFrames (s : ROSBagReader) : Int := s.numFrames

/-- Lines 215-218: `currentFrame + 1 < numFrames` on `int`s, the sum wrapping around at
`INT_MAX`. The members of an object are always `int` values; for integers outside that
range, which no object holds, the comparison is the mathematical one. -/
def ROSBagReader.hasMore (s : ROSBagReader) : Bool :=
  if isInt32 s.currentFrame ∧ isInt32 s.numFrames then
    decide (wrapInt32 (s.currentFrame + 1) < s.numFrames)
  else decide (s.currentFrame + 1 < s.numFrames)

/-- Lines 221-224. -/
def ROSBagReader.rewind (s : ROSBagReader) : ROSBagReader := { s with currentFrame := 0 }

/-- Lines 226-229. -/
def ROSBagReader.rewound (s : ROSBagReader) : Bool := s.currentFrame == 0

/-- Lines 231-234. -/
def ROSBagReader.getFile (s : ROSBagReader) : String := s.file

/-- Lines 236-239: an empty body. -/
def ROSBagReader.setAuto (s : ROSBagReader) (_value : Bool) : ROSBagReader := s

/-- The public operations of the reader. -/
inductive Op where
  | getNext
  | getBack
  | rewind
  | fastForward (frame : Int)
  | setAuto (value : Bool)
  | hasMore
  | rewound
  | getNumFrames
  | getFile

/-- The effect of one public operation on the object; `hasMore`, `rewound`,
`getNumFrames` and `getFile` only read it. -/
def Op.run (cvt : Float32 → Nat) : Op → ROSBagReader → Outcome ROSBagReader
  | .getNext, s => s.getNext cvt
  | .getBack, s => s.getBack cvt
  | .rewind, s => .ok s.rewind
  | .fastForward frame, s => s.fastForward frame
  | .setAuto value, s => .ok (s.setAuto value)
  | .hasMore, s => .ok s
  | .rewound, s => .ok s
  | .getNumFrames, s => .ok s
  | .getFile, s => .ok s

/-- The states a reader can be in: the freshly constructed one, and every state in which
a public operation returns when called in such a state. -/
inductive Reachable (cvt : Float32 → Nat) : ROSBagReader → Prop where
  | construct (view : List MessageInstance) (file : String) (flipColors : Bool)
      (numPixels : Nat) (timestamp : Int) :
      Reachable cvt (ROSBagReader.construct view file flipColors numPixels timestamp)
  | step (s s2 : ROSBagReader) (op : Op) :
      Reachable cvt s → op.run cvt s = .ok s2 → Reachable cvt s2

/-! ## Vocabulary of the properties -/

/-- The first `n` bytes of a payload as buffer contents; a byte the payload does not have
is indeterminate. -/
def payloadPrefix (data : List Nat) (n : Nat) : List (Option Nat) :=
  (List.range n).map (fun k => data[k]?)

/-- A calibration record on the calibration channel: a message that passes the topic
test against `cam_info_topic` and holds a `CameraInfo`. -/
def isCalibrationRecord (m : MessageInstance) : Bool :=
  topicMatches m cam_info_topic && m.instantiateCameraInfo.isSome

/-- The parameters `rosGetParams` is to report for a calibration record. -/
def paramsOf (info : CameraInfo) : CameraParams :=
  { pixels_width := toInt32 info.width
    pixels_height := toInt32 info.height
    fx := info.K 0
    fy := info.K 4
    cx := info.K 2
    cy := info.K 5 }

/-- The flip as the specification words it: in every group of three bytes the first and
the third change places and the second stays. -/
def flipPixels : List (Option Nat) → List (Option Nat)
  | a :: b :: c :: rest => c :: b :: a :: flipPixels rest
  | rest => rest

/-- The image a message contributes to the colour sequence, if any. -/
def colourImageOf (m : MessageInstance) : Option Image :=
  if topicMatches m image_rgb_topic then m.instantiateImage else none

/-- The image a message contributes to the depth sequence, if any. -/
def depthImageOf (m : MessageInstance) : Option Image :=
  if topicMatches m image_d_topic then m.instantiateImage else none

/-! ## Sample data -/

/-- A calibration record of a 640 x 480 camera. -/
def sampleInfo : CameraInfo :=
  { width := 640, height := 480, K := fun i => 100 + i.val }

/-- A view with an unrelated message, a calibration record, and a later calibration
record of another camera. -/
def sampleCalibrationView : List MessageInstance :=
  [ { topic := "/tf", payload := .other },
    { topic := "camera_1112170110/rgb/camera_info", payload := .cameraInfo sampleInfo },
    { topic := cam_info_topic,
      payload := .cameraInfo { width := 320, height := 240, K := fun _ => 7 } } ]

/-- A view without any calibration record: the calibration topic carries a message of
another type, and a `CameraInfo` is recorded on another topic. -/
def sampleNoCalibrationView : List MessageInstance :=
  [ { topic := cam_info_topic, payload := .other },
    { topic := "/camera_2/rgb/camera_info", payload := .cameraInfo sampleInfo } ]

/-- A 1 x 1 colour record with the given time stamp and pixel. -/
def sampleColour (stamp : Int) (b g r : Nat) : Image :=
  { stamp := stamp, height := 1, width := 1, encoding := "bgr8", step := 3, data := [b, g, r] }

/-- A 1 x 1 depth record with the given time stamp and float bytes. -/
def sampleDepth (stamp : Int) (bytes : List Nat) : Image :=
  { stamp := stamp, height := 1, width := 1, encoding := "32FC1", step := 4, data := bytes }

/-- A view with ten colour records and eight depth records, interleaved with other
traffic. -/
def sampleUnpairedView : List MessageInstance :=
  List.replicate 8 { topic := image_d_topic, payload := .image (sampleDepth 0 [0, 0, 128, 63]) } ++
  [ { topic := "/tf", payload := .other } ] ++
  List.replicate 10 { topic := image_rgb_topic, payload := .image (sampleColour 0 1 2 3) }

/-- A stand-in for the element map of `convertTo`: the low byte of the float. -/
def sampleCvt : Float32 → Nat := fun bytes => bytes.headD 0

/-- A view of three frames of one pixel each, depth and colour interleaved. -/
def sampleFramesView : List MessageInstance :=
  [ { topic := image_d_topic, payload := .image (sampleDepth 10 [11, 0, 0, 0]) },
    { topic := image_rgb_topic, payload := .image (sampleColour 10 1 2 3) },
    { topic := image_d_topic, payload := .image (sampleDepth 20 [12, 0, 0, 0]) },
    { topic := image_rgb_topic, payload := .image (sampleColour 20 4 5 6) },
    { topic := image_d_topic, payload := .image (sampleDepth 30 [13, 0, 0, 0]) },
    { topic := image_rgb_topic, payload := .image (sampleColour 30 7 8 9) } ]

/-- The reader constructed over `sampleFramesView` for a 1 x 1 resolution. -/
def sampleReader (flipColors : Bool) : ROSBagReader :=
  ROSBagReader.construct sampleFramesView "scan.bag" flipColors 1 0

/-- The state `sampleReader` is in after its first frame. -/
def sampleReader1 (flipColors : Bool) : ROSBagReader :=
  { sampleReader flipColors with
    currentFrame := 1
    timestamp := 10
    decompressionBufferDepth := [some 11]
    decompressionBufferImage := if flipColors then [some 3, some 2, some 1]
      else [some 1, some 2, some 3] }

/-- The state `sampleReader` is in after its second frame. -/
def sampleReader2 (flipColors : Bool) : ROSBagReader :=
  { sampleReader flipColors with
    currentFrame := 2
    timestamp := 20
    decompressionBufferDepth := [some 12]
    decompressionBufferImage := if flipColors then [some 6, some 5, some 4]
      else [some 4, some 5, some 6] }

/-- A reader at frame 8 of `sampleUnpairedView`: the colour sequence has ten records,
the depth sequence eight. -/
def sampleUnpairedReader : ROSBagReader :=
  { ROSBagReader.construct sampleUnpairedView "scan.bag" false 1 0 with currentFrame := 8 }

/-- A one-frame view whose depth record declares `step * height = 4` and carries a
payload of eight bytes. -/
def sampleLongPayloadView : List MessageInstance :=
  [ { topic := image_d_topic,
      payload := .image { stamp := 5, height := 1, width := 1, encoding := "32FC1", step := 4,
                          data := [11, 0, 0, 0, 12, 0, 0, 0] } },
    { topic := image_rgb_topic, payload := .image (sampleColour 5 1 2 3) } ]

/-- The reader constructed over `sampleLongPayloadView` for a 1 x 1 resolution. -/
def sampleLongPayloadReader : ROSBagReader :=
  ROSBagReader.construct sampleLongPayloadView "scan.bag" false 1 0

/-- A one-frame view whose depth record has the expected size and a 16-bit encoding. -/
def sampleWrongEncodingView : List MessageInstance :=
  [ { topic := image_d_topic,
      payload := .image { stamp := 5, height := 1, width := 1, encoding := "16UC1", step := 4,
                          data := [11, 0, 0, 0] } },
    { topic := image_rgb_topic, payload := .image (sampleColour 5 1 2 3) } ]

/-- The reader constructed over `sampleWrongEncodingView` for a 1 x 1 resolution. -/
def sampleWrongEncodingReader : ROSBagReader :=
  ROSBagReader.construct sampleWrongEncodingView "scan.bag" false 1 0

/-- A view of two colour records and one depth record. -/
def sampleShortDepthView : List MessageInstance :=
  [ { topic := image_d_topic, payload := .image (sampleDepth 10 [11, 0, 0, 0]) },
    { topic := image_rgb_topic, payload := .image (sampleColour 10 1 2 3) },
    { topic := image_rgb_topic, payload := .image (sampleColour 20 4 5 6) } ]

/-- The reader constructed over `sampleShortDepthView` for a 1 x 1 resolution. -/
def sampleShortDepthReader : ROSBagReader :=
  ROSBagReader.construct sampleShortDepthView "scan.bag" false 1 0

/-- A view that mixes the two spellings of the image topics with other traffic and with
a message of another type on the depth topic. -/
def sampleMixedView : List MessageInstance :=
  [ { topic := "camera_1112170110/rgb/image_rect_color", payload := .image (sampleColour 1 1 2 3) },
    { topic := "/tf", payload := .image (sampleColour 2 0 0 0) },
    { topic := image_d_topic, payload := .image (sampleDepth 3 [11, 0, 0, 0]) },
    { topic := image_d_topic, payload := .other },
    { topic := "camera_1112170110/depth_registered/sw_registered/image_rect",
      payload := .image (sampleDepth 4 [12, 0, 0, 0]) },
    { topic := image_rgb_topic, payload := .image (sampleColour 5 4 5 6) } ]

/-- A calibration record whose width and height do not fit an `int`. -/
def sampleWideInfo : CameraInfo :=
  { width := 4294967295, height := 3000000000, K := fun i => 100 + i.val }

/-- A view with the one calibration record `sampleWideInfo`. -/
def sampleWideView : List MessageInstance :=
  [ { topic := cam_info_topic, payload := .cameraInfo sampleWideInfo } ]

/-- A one-frame view whose colour record declares step 4294967295 and height 4294967293,
a product that is 3 modulo `2^32`, and carries a payload of four bytes. -/
def sampleWrappedColourView : List MessageInstance :=
  [ { topic := image_d_topic, payload := .image (sampleDepth 5 [11, 0, 0, 0]) },
    { topic := image_rgb_topic,
      payload := .image { stamp := 5, height := 4294967293, width := 1, encoding := "bgr8",
                          step := 4294967295, data := [1, 2, 3, 4] } } ]

/-- The reader constructed over `sampleWrappedColourView` for a 1 x 1 resolution. -/
def sampleWrappedColourReader : ROSBagReader :=
  ROSBagReader.construct sampleWrappedColourView "scan.bag" false 1 0

/-- A reader of three frames whose cursor holds `INT_MAX`. -/
def sampleMaxCursorReader : ROSBagReader :=
  { sampleReader false with currentFrame := 2147483647 }

/-- The reads and stores of a returning `getCore` stay inside their storage, and its
`int` products do not overflow: the floats read lie inside the depth payload, the pixels
stored lie inside the matrix sized by depth record 0, the matrix and the colour payload
hold the bytes copied out of them, and `numPixels * 4` is an `int`. -/
def FrameInBounds (numPixels : Nat) (c d d0 : Image) : Prop :=
  4 * (d.height * d.width) ≤ d.data.length ∧
  d.height ≤ d0.height ∧ d.width ≤ d0.width ∧
  d0.height < 2 ^ 31 ∧ d0.width < 2 ^ 31 ∧
  numPixels ≤ d0.height * d0.width ∧
  numPixels * 3 ≤ c.data.length ∧
  numPixels * 4 < 2 ^ 31

/-- A one-frame view whose depth record declares step 1073741825 and height 4, a product
of `2^32 + 4`, and carries a payload of sixteen bytes. -/
def sampleWrappedDepthView : List MessageInstance :=
  [ { topic := image_d_topic,
      payload := .image { stamp := 5, height := 4, width := 1, encoding := "32FC1",
                          step := 1073741825,
                          data := [11, 0, 0, 0, 12, 0, 0, 0, 13, 0, 0, 0, 14, 0, 0, 0] } },
    { topic := image_rgb_topic, payload := .image (sampleColour 5 1 2 3) } ]

/-- The reader constructed over `sampleWrappedDepthView` for a 1 x 1 resolution. -/
def sampleWrappedDepthReader : ROSBagReader :=
  ROSBagReader.construct sampleWrappedDepthView "scan.bag" false 1 0

/-! ## Machine integers: facts -/

theorem toInt32_of_lt (n : Nat) (h : n < 2 ^ 31) : toInt32 n = (n : Int) := by
  unfold toInt32
  have e : n % 2 ^ 32 = n := Nat.mod_eq_of_lt (by omega)
  rw [e, if_pos h]

theorem toInt32_eq_iff (a b : Nat) : toInt32 a = toInt32 b ↔ a % 2 ^ 32 = b % 2 ^ 32 := by
  unfold toInt32
  have ha : a % 2 ^ 32 < 2 ^ 32 := Nat.mod_lt _ (by norm_num)
  have hb : b % 2 ^ 32 < 2 ^ 32 := Nat.mod_lt _ (by norm_num)
  constructor
  · intro h
    split at h <;> split at h <;> omega
  · intro h
    rw [h]

theorem toInt32_uint32Mul (a b : Nat) : toInt32 (uint32Mul a b) = toInt32 (a * b) := by
  rw [toInt32_eq_iff]
  unfold uint32Mul
  exact Nat.mod_mod _ _

theorem sizeTest_iff (a b n : Nat) :
    toInt32 (uint32Mul a b) = toInt32 n ↔ (a * b) % 2 ^ 32 = n % 2 ^ 32 := by
  rw [toInt32_uint32Mul, toInt32_eq_iff]

theorem wrapInt32_of_isInt32 (z : Int) (hlo : -2147483648 ≤ z) (hhi : z < 2147483648) :
    wrapInt32 z = z := by
  unfold wrapInt32
  omega

theorem hasMore_eq_of_ne_max (s : ROSBagReader) (h : s.currentFrame ≠ 2147483647) :
    s.hasMore = decide (s.currentFrame + 1 < s.numFrames) := by
  unfold ROSBagReader.hasMore
  split
  · rename_i hg
    simp only [isInt32, decide_eq_true_eq] at hg
    rw [wrapInt32_of_isInt32 _ (by omega) (by omega)]
  · rfl

theorem rosGetParams_skip (m : MessageInstance) (view : List MessageInstance)
    (h : isCalibrationRecord m = false) : rosGetParams (m :: view) = rosGetParams view := by
  unfold isCalibrationRecord at h
  rw [rosGetParams]
  by_cases ht : topicMatches m cam_info_topic = true
  · cases hi : m.instantiateCameraInfo with
    | none => simp [ht]
    | some info => simp [ht, hi] at h
  · simp [ht]

theorem rosGetParams_hit (m : MessageInstance) (view : List MessageInstance) (info : CameraInfo)
    (ht : topicMatches m cam_info_topic = true) (hp : m.payload = .cameraInfo info) :
    rosGetParams (m :: view) = .ok (paramsOf info) := by
  rw [rosGetParams]
  simp [ht, MessageInstance.instantiateCameraInfo, hp, paramsOf]

theorem isCalibrationRecord_payload (m : MessageInstance) (h : isCalibrationRecord m = true) :
    topicMatches m cam_info_topic = true ∧ ∃ info, m.payload = .cameraInfo info := by
  unfold isCalibrationRecord MessageInstance.instantiateCameraInfo at h
  cases hp : m.payload <;> simp_all

theorem rosGetParams_returns (view : List MessageInstance)
    (h : ∃ m ∈ view, isCalibrationRecord m = true) : ∃ p, rosGetParams view = .ok p := by
  induction view with
  | nil => simp at h
  | cons a rest ih =>
    by_cases ha : isCalibrationRecord a = true
    · obtain ⟨ht, info, hp⟩ := isCalibrationRecord_payload a ha
      exact ⟨_, rosGetParams_hit a rest info ht hp⟩
    · have ha2 : isCalibrationRecord a = false := by simpa using ha
      rw [rosGetParams_skip a rest ha2]
      apply ih
      obtain ⟨m, hm, hc⟩ := h
      rcases List.mem_cons.mp hm with rfl | hm2
      · exact absurd hc ha
      · exact ⟨m, hm2, hc⟩

/-- C1, as the code has it. For every view that contains a calibration record on the
calibration channel, `rosGetParams` returns the width and height of the first such record
in container order as the `int`s they become when stored (the same numbers whenever they
are below `2^31`), and its `K[0]`, `K[4]`, `K[2]`, `K[5]` unchanged; whatever follows
that record has no influence. -/
theorem rosGetParams_first_calibration (view : List MessageInstance)
    (h : ∃ m ∈ view, isCalibrationRecord m = true) :
    ∃ pre m post info,
      view = pre ++ m :: post ∧
      (∀ x ∈ pre, isCalibrationRecord x = false) ∧
      topicMatches m cam_info_topic = true ∧
      m.payload = .cameraInfo info ∧
      rosGetParams view =
        .ok { pixels_width := toInt32 info.width, pixels_height := toInt32 info.height,
              fx := info.K 0, fy := info.K 4, cx := info.K 2, cy := info.K 5 } ∧
      (info.width < 2 ^ 31 → toInt32 info.width = (info.width : Int)) ∧
      (info.height < 2 ^ 31 → toInt32 info.height = (info.height : Int)) ∧
      ∀ later, rosGetParams (pre ++ m :: later) = rosGetParams view := by
  induction view with
  | nil => simp at h
  | cons a rest ih =>
    by_cases ha : isCalibrationRecord a = true
    · obtain ⟨ht, info, hp⟩ := isCalibrationRecord_payload a ha
      refine ⟨[], a, rest, info, rfl, by simp, ht, hp, ?_, toInt32_of_lt _, toInt32_of_lt _, ?_⟩
      · exact rosGetParams_hit a rest info ht hp
      · intro later
        simp only [List.nil_append]
        rw [rosGetParams_hit a later info ht hp, rosGetParams_hit a rest info ht hp]
    · have ha2 : isCalibrationRecord a = false := by simpa using ha
      have hrest : ∃ m ∈ rest, isCalibrationRecord m = true := by
        obtain ⟨m, hm, hc⟩ := h
        rcases List.mem_cons.mp hm with rfl | hm2
        · exact absurd hc ha
        · exact ⟨m, hm2, hc⟩
      obtain ⟨pre, m, post, info, hv, hpre, ht, hp, hr, hw, hh, hl⟩ := ih hrest
      refine ⟨a :: pre, m, post, info, by simp [hv], ?_, ht, hp, ?_, hw, hh, ?_⟩
      · intro x hx
        rcases List.mem_cons.mp hx with rfl | hx2
        · exact ha2
        · exact hpre x hx2
      · rw [rosGetParams_skip a rest ha2]; exact hr
      · intro later
        simp only [List.cons_append]
        rw [rosGetParams_skip a _ ha2, rosGetParams_skip a rest ha2]
        exact hl later

/-- Witness of C1 on `sampleCalibrationView`. -/
theorem rosGetParams_first_calibration_witness :
    (∃ m ∈ sampleCalibrationView, isCalibrationRecord m = true) ∧
    ∃ pre m post info,
      sampleCalibrationView = pre ++ m :: post ∧
      (∀ x ∈ pre, isCalibrationRecord x = false) ∧
      topicMatches m cam_info_topic = true ∧
      m.payload = .cameraInfo info ∧
      rosGetParams sampleCalibrationView =
        .ok { pixels_width := toInt32 info.width, pixels_height := toInt32 info.height,
              fx := info.K 0, fy := info.K 4, cx := info.K 2, cy := info.K 5 } ∧
      (info.width < 2 ^ 31 → toInt32 info.width = (info.width : Int)) ∧
      (info.height < 2 ^ 31 → toInt32 info.height = (info.height : Int)) ∧
      ∀ later, rosGetParams (pre ++ m :: later) = rosGetParams sampleCalibrationView :=
  ⟨by decide, rosGetParams_first_calibration sampleCalibrationView (by decide)⟩

/-- C1 as stated fails: the only calibration record of `sampleWideView` has width
4294967295 and height 3000000000, and `rosGetParams` returns -1 and -1294967296. -/
theorem rosGetParams_wraps_wide_fields :
    (∃ m ∈ sampleWideView, isCalibrationRecord m = true ∧
      m.payload = .cameraInfo sampleWideInfo) ∧
    ∃ p, rosGetParams sampleWideView = .ok p ∧
      p.pixels_width = -1 ∧ p.pixels_height = -1294967296 ∧
      p.pixels_width ≠ (sampleWideInfo.width : Int) ∧
      p.pixels_height ≠ (sampleWideInfo.height : Int) :=
  ⟨⟨_, List.mem_singleton.mpr rfl, by decide, rfl⟩, _, rfl, by decide, by decide, by decide,
    by decide⟩

theorem rosGetParams_none (view : List MessageInstance)
    (h : ∀ m ∈ view, isCalibrationRecord m = false) :
    rosGetParams view = .error "Did not find camera info!" := by
  induction view with
  | nil => rfl
  | cons a rest ih =>
    rw [rosGetParams_skip a rest (h a (List.mem_cons_self a rest))]
    exact ih (fun m hm => h m (List.mem_cons_of_mem a hm))

/-- C2. `rosGetParams` ends in its fatal outcome (the diagnostic, then `exit(0)`)
exactly for the views without a calibration record on the calibration channel; that is
its only fatal outcome, and in it no values are returned. -/
theorem rosGetParams_fatal_iff_no_calibration (view : List MessageInstance) :
    (rosGetParams view = .error "Did not find camera info!" ↔
      ∀ m ∈ view, isCalibrationRecord m = false) ∧
    (∀ d, rosGetParams view = .error d → d = "Did not find camera info!") ∧
    ((∀ m ∈ view, isCalibrationRecord m = false) → ∀ p, rosGetParams view ≠ .ok p) := by
  have hdir : (∀ d, rosGetParams view = .error d → ∀ m ∈ view, isCalibrationRecord m = false) := by
    intro d hd m hm
    by_contra hc
    have hc2 : isCalibrationRecord m = true := by simpa using hc
    obtain ⟨p, hr⟩ := rosGetParams_returns view ⟨m, hm, hc2⟩
    rw [hr] at hd
    cases hd
  refine ⟨⟨fun he => hdir _ he, rosGetParams_none view⟩, ?_, ?_⟩
  · intro d hd
    have h2 := rosGetParams_none view (hdir d hd)
    rw [hd] at h2
    cases h2
    rfl
  · intro h p hp
    rw [rosGetParams_none view h] at hp
    cases hp

/-- Witness of C2 on `sampleNoCalibrationView`. -/
theorem rosGetParams_fatal_iff_no_calibration_witness :
    rosGetParams sampleNoCalibrationView = .error "Did not find camera info!" :=
  (rosGetParams_fatal_iff_no_calibration sampleNoCalibrationView).1.2 (by decide)

/-! ## Ingestion -/

theorem loadBagBody_images_rgb (log : ROSRgbdData) (m : MessageInstance) :
    (loadBagBody log m).images_rgb = log.images_rgb ++ (colourImageOf m).toList := by
  unfold loadBagBody colourImageOf
  cases topicMatches m image_d_topic <;> cases topicMatches m image_rgb_topic <;>
    cases topicMatches m cam_info_topic <;> cases m.instantiateImage <;>
    cases m.instantiateCameraInfo <;> simp

theorem loadBagBody_images_d (log : ROSRgbdData) (m : MessageInstance) :
    (loadBagBody log m).images_d = log.images_d ++ (depthImageOf m).toList := by
  unfold loadBagBody depthImageOf
  cases topicMatches m image_d_topic <;> cases topicMatches m image_rgb_topic <;>
    cases topicMatches m cam_info_topic <;> cases m.instantiateImage <;>
    cases m.instantiateCameraInfo <;> simp

theorem filterMap_eq_toList_append {α β : Type} (f : α → Option β) (a : α) (l : List α) :
    (a :: l).filterMap f = (f a).toList ++ l.filterMap f := by
  cases h : f a <;> simp [List.filterMap_cons, h]

theorem loadBag_images_rgb (view : List MessageInstance) (log : ROSRgbdData) :
    (loadBag view log).images_rgb = log.images_rgb ++ view.filterMap colourImageOf := by
  induction view generalizing log with
  | nil => simp [loadBag]
  | cons a rest ih =>
    have h := ih (loadBagBody log a)
    rw [loadBag] at h ⊢
    rw [List.foldl_cons, h, loadBagBody_images_rgb, filterMap_eq_toList_append,
      List.append_assoc]

theorem loadBag_images_d (view : List MessageInstance) (log : ROSRgbdData) :
    (loadBag view log).images_d = log.images_d ++ view.filterMap depthImageOf := by
  induction view generalizing log with
  | nil => simp [loadBag]
  | cons a rest ih =>
    have h := ih (loadBagBody log a)
    rw [loadBag] at h ⊢
    rw [List.foldl_cons, h, loadBagBody_images_d, filterMap_eq_toList_append,
      List.append_assoc]

theorem vectorAt_eq_none_iff {α : Type} (v : List α) (i : Int) :
    vectorAt v i = none ↔ i < 0 ∨ (v.length : Int) ≤ i := by
  unfold vectorAt
  by_cases h : 0 ≤ i
  · simp only [h, if_true, List.getElem?_eq_none_iff]
    omega
  · simp only [h, if_false, true_iff]
    omega

theorem vectorAt_eq_some_iff {α : Type} (v : List α) (i : Int) (a : α) :
    vectorAt v i = some a ↔ 0 ≤ i ∧ v[i.toNat]? = some a := by
  unfold vectorAt
  by_cases h : 0 ≤ i <;> simp [h]

theorem vectorAt_lt {α : Type} (v : List α) (i : Int) (a : α) (h : vectorAt v i = some a) :
    0 ≤ i ∧ i < (v.length : Int) := by
  rw [vectorAt_eq_some_iff] at h
  obtain ⟨h0, h1⟩ := h
  have := (List.getElem?_eq_some_iff.mp h1).1
  omega

theorem vectorAt_zero_of_some {α : Type} (v : List α) (i : Int) (a : α)
    (h : vectorAt v i = some a) : ∃ a0, vectorAt v 0 = some a0 := by
  have hl := vectorAt_lt v i a h
  cases v with
  | nil => simp at hl; omega
  | cons x xs => exact ⟨x, by simp [vectorAt]⟩

theorem getCore_threw_rgb (cvt : Float32 → Nat) (s : ROSBagReader)
    (h : vectorAt s.log_rgbd_data.images_rgb s.currentFrame = none) :
    s.getCore cvt = .threw s := by
  simp [ROSBagReader.getCore, h]

theorem getCore_threw_d (cvt : Float32 → Nat) (s : ROSBagReader) (c : Image)
    (hc : vectorAt s.log_rgbd_data.images_rgb s.currentFrame = some c)
    (hd : vectorAt s.log_rgbd_data.images_d s.currentFrame = none) :
    s.getCore cvt = .threw { s with timestamp := c.stamp } := by
  simp [ROSBagReader.getCore, hc, hd]

theorem getCore_exited_depth (cvt : Float32 → Nat) (s : ROSBagReader) (c d : Image)
    (hc : vectorAt s.log_rgbd_data.images_rgb s.currentFrame = some c)
    (hd : vectorAt s.log_rgbd_data.images_d s.currentFrame = some d)
    (hchk : ¬ (toInt32 (uint32Mul d.step d.height) = toInt32 (s.numPixels * 4) ∧
      d.encoding = "32FC1")) :
    s.getCore cvt =
      .exited "Am expecting 32FC1 encoded depth image in ROSBagReader.cpp"
        { s with timestamp := c.stamp } := by
  simp only [ROSBagReader.getCore, hc, hd, hchk, if_false]

theorem getCore_exited_colour (cvt : Float32 → Nat) (s : ROSBagReader) (c d d0 : Image)
    (hc : vectorAt s.log_rgbd_data.images_rgb s.currentFrame = some c)
    (hd : vectorAt s.log_rgbd_data.images_d s.currentFrame = some d)
    (hd0 : vectorAt s.log_rgbd_data.images_d 0 = some d0)
    (hchk : toInt32 (uint32Mul d.step d.height) = toInt32 (s.numPixels * 4) ∧
      d.encoding = "32FC1")
    (himg : toInt32 (uint32Mul c.step c.height) ≠ toInt32 (s.numPixels * 3)) :
    s.getCore cvt =
      .exited "Am not expecting compressed images in ROSBagReader.cpp"
        { s with
          timestamp := c.stamp
          decompressionBufferDepth :=
            memcpy s.decompressionBufferDepth
              (convertTo cvt (fillDepth d0.height d0.width d)) s.numPixels } := by
  simp only [ROSBagReader.getCore, hc, hd, hd0, hchk, himg, if_false, if_true, and_self]

theorem getCore_ok (cvt : Float32 → Nat) (s : ROSBagReader) (c d d0 : Image)
    (hc : vectorAt s.log_rgbd_data.images_rgb s.currentFrame = some c)
    (hd : vectorAt s.log_rgbd_data.images_d s.currentFrame = some d)
    (hd0 : vectorAt s.log_rgbd_data.images_d 0 = some d0)
    (hchk : toInt32 (uint32Mul d.step d.height) = toInt32 (s.numPixels * 4) ∧
      d.encoding = "32FC1")
    (himg : toInt32 (uint32Mul c.step c.height) = toInt32 (s.numPixels * 3)) :
    s.getCore cvt =
      .ok { s with
          timestamp := c.stamp
          decompressionBufferDepth :=
            memcpy s.decompressionBufferDepth
              (convertTo cvt (fillDepth d0.height d0.width d)) s.numPixels
          decompressionBufferImage :=
            if s.flipColors = true then
              flipLoop s.numPixels
                (memcpy s.decompressionBufferImage (c.data.map some) (s.numPixels * 3))
            else memcpy s.decompressionBufferImage (c.data.map some) (s.numPixels * 3)
          currentFrame := s.currentFrame + 1 } := by
  simp only [ROSBagReader.getCore, hc, hd, hd0, hchk, himg, if_true, and_self]
  cases s.flipColors <;> simp


theorem getCore_cases (cvt : Float32 → Nat) (s : ROSBagReader) :
    ((s.getCore cvt).isFatal = true ∧
      (s.getCore cvt).state.currentFrame = s.currentFrame ∧
      (s.getCore cvt).state.numFrames = s.numFrames ∧
      (s.getCore cvt).state.log_rgbd_data = s.log_rgbd_data) ∨
    ∃ c d d0,
      vectorAt s.log_rgbd_data.images_rgb s.currentFrame = some c ∧
      vectorAt s.log_rgbd_data.images_d s.currentFrame = some d ∧
      vectorAt s.log_rgbd_data.images_d 0 = some d0 ∧
      (toInt32 (uint32Mul d.step d.height) = toInt32 (s.numPixels * 4) ∧
        d.encoding = "32FC1") ∧
      toInt32 (uint32Mul c.step c.height) = toInt32 (s.numPixels * 3) ∧
      s.getCore cvt =
        .ok { s with
          timestamp := c.stamp
          decompressionBufferDepth :=
            memcpy s.decompressionBufferDepth
              (convertTo cvt (fillDepth d0.height d0.width d)) s.numPixels
          decompressionBufferImage :=
            if s.flipColors = true then
              flipLoop s.numPixels
                (memcpy s.decompressionBufferImage (c.data.map some) (s.numPixels * 3))
            else memcpy s.decompressionBufferImage (c.data.map some) (s.numPixels * 3)
          currentFrame := s.currentFrame + 1 } := by
  cases hc : vectorAt s.log_rgbd_data.images_rgb s.currentFrame with
  | none =>
    left
    rw [getCore_threw_rgb cvt s hc]
    simp [Outcome.isFatal, Outcome.state]
  | some c =>
    cases hd : vectorAt s.log_rgbd_data.images_d s.currentFrame with
    | none =>
      left
      rw [getCore_threw_d cvt s c hc hd]
      simp [Outcome.isFatal, Outcome.state]
    | some d =>
      by_cases hchk : toInt32 (uint32Mul d.step d.height) = toInt32 (s.numPixels * 4) ∧
          d.encoding = "32FC1"
      · obtain ⟨d0, hd0⟩ := vectorAt_zero_of_some _ _ _ hd
        by_cases himg : toInt32 (uint32Mul c.step c.height) = toInt32 (s.numPixels * 3)
        · right
          exact ⟨c, d, d0, rfl, rfl, hd0, hchk, himg, getCore_ok cvt s c d d0 hc hd hd0 hchk himg⟩
        · left
          rw [getCore_exited_colour cvt s c d d0 hc hd hd0 hchk himg]
          simp [Outcome.isFatal, Outcome.state]
      · left
        rw [getCore_exited_depth cvt s c d hc hd hchk]
        simp [Outcome.isFatal, Outcome.state]

theorem getCore_ok_inv (cvt : Float32 → Nat) (s s2 : ROSBagReader)
    (h : s.getCore cvt = .ok s2) :
    ∃ c d d0,
      vectorAt s.log_rgbd_data.images_rgb s.currentFrame = some c ∧
      vectorAt s.log_rgbd_data.images_d s.currentFrame = some d ∧
      vectorAt s.log_rgbd_data.images_d 0 = some d0 ∧
      (toInt32 (uint32Mul d.step d.height) = toInt32 (s.numPixels * 4) ∧
        d.encoding = "32FC1") ∧
      toInt32 (uint32Mul c.step c.height) = toInt32 (s.numPixels * 3) ∧
      s2 = { s with
          timestamp := c.stamp
          decompressionBufferDepth :=
            memcpy s.decompressionBufferDepth
              (convertTo cvt (fillDepth d0.height d0.width d)) s.numPixels
          decompressionBufferImage :=
            if s.flipColors = true then
              flipLoop s.numPixels
                (memcpy s.decompressionBufferImage (c.data.map some) (s.numPixels * 3))
            else memcpy s.decompressionBufferImage (c.data.map some) (s.numPixels * 3)
          currentFrame := s.currentFrame + 1 } := by
  rcases getCore_cases cvt s with ⟨hf, _⟩ | ⟨c, d, d0, hc, hd, hd0, hchk, himg, hr⟩
  · rw [h] at hf
    simp [Outcome.isFatal] at hf
  · rw [hr] at h
    injection h with h
    exact ⟨c, d, d0, hc, hd, hd0, hchk, himg, h.symm⟩

theorem forLoop_fuel_enough {σ : Type} (stop stride : Nat) (body : Nat → σ → σ)
    (fuel extra i : Nat) (s : σ) (h : stop ≤ i + fuel * stride) :
    forLoop stop stride body (fuel + extra) i s = forLoop stop stride body fuel i s := by
  induction fuel generalizing i s with
  | zero =>
    have hi : ¬ i < stop := by omega
    cases extra with
    | zero => rfl
    | succ e => simp [forLoop, hi]
  | succ f ih =>
    have e : f + 1 + extra = (f + extra) + 1 := by omega
    rw [e, forLoop, forLoop]
    by_cases hi : i < stop
    · simp only [hi, if_true]
      apply ih
      have : (f + 1) * stride = f * stride + stride := by ring
      omega
    · simp only [hi, if_false]

theorem swapBody_append (pre rest : List (Option Nat)) (a b c : Option Nat) :
    swapBody pre.length (pre ++ a :: b :: c :: rest) = pre ++ c :: b :: a :: rest := by
  unfold swapBody
  have g2 : (pre ++ a :: b :: c :: rest).getD (pre.length + 2) none = c := by
    rw [List.getD_eq_getElem?_getD, List.getElem?_append_right (by omega)]
    simp
  have g0 : (pre ++ a :: b :: c :: rest).getD (pre.length + 0) none = a := by
    rw [List.getD_eq_getElem?_getD, List.getElem?_append_right (by omega)]
    simp
  rw [g2, g0, List.set_append_right _ _ (by omega), List.set_append_right _ _ (by omega)]
  simp

theorem forLoop_flip (fuel k : Nat) (pre rest tail : List (Option Nat))
    (hrest : rest.length = 3 * k) (hfuel : k ≤ fuel) :
    forLoop (pre.length + 3 * k) 3 swapBody fuel pre.length (pre ++ (rest ++ tail))
      = pre ++ (flipPixels rest ++ tail) := by
  induction fuel generalizing k pre rest with
  | zero =>
    have hk : k = 0 := by omega
    subst hk
    have : rest = [] := List.length_eq_zero.mp (by simpa using hrest)
    subst this
    simp [forLoop, flipPixels]
  | succ f ih =>
    cases k with
    | zero =>
      have : rest = [] := List.length_eq_zero.mp (by simpa using hrest)
      subst this
      simp [forLoop, flipPixels]
    | succ k =>
      match rest, hrest with
      | a :: b :: c :: rest2, hrest =>
        have hlen : rest2.length = 3 * k := by simp at hrest; omega
        rw [forLoop]
        have hg : pre.length < pre.length + 3 * (k + 1) := by omega
        simp only [hg, if_true]
        have hsw : swapBody pre.length (pre ++ (a :: b :: c :: rest2 ++ tail))
            = (pre ++ [c, b, a]) ++ (rest2 ++ tail) := by
          have := swapBody_append pre (rest2 ++ tail) a b c
          simpa using this
        rw [hsw]
        have hpl : pre.length + 3 = (pre ++ [c, b, a]).length := by simp
        have hst : pre.length + 3 * (k + 1) = (pre ++ [c, b, a]).length + 3 * k := by
          simp; omega
        rw [hpl, hst, ih k (pre ++ [c, b, a]) rest2 hlen (by omega)]
        simp [flipPixels]

theorem flipLoop_eq_flipPixels (n : Nat) (rgb tail : List (Option Nat))
    (hlen : rgb.length = n * 3) :
    flipLoop n (rgb ++ tail) = flipPixels rgb ++ tail := by
  have h := forLoop_flip n n [] rgb tail (by omega) (le_refl _)
  simp only [List.length_nil, Nat.zero_add, List.nil_append] at h
  unfold flipLoop
  rw [Nat.mul_comm n 3]
  exact h

theorem flipPixels_length (rgb : List (Option Nat)) : (flipPixels rgb).length = rgb.length := by
  induction rgb using flipPixels.induct with
  | case1 a b c rest ih => simp [flipPixels, ih]
  | case2 rest h => 
    unfold flipPixels
    split
    · exact absurd rfl (h _ _ _ _)
    · rfl

theorem flipPixels_flipPixels (rgb : List (Option Nat)) : flipPixels (flipPixels rgb) = rgb := by
  induction rgb using flipPixels.induct with
  | case1 a b c rest ih => simp [flipPixels, ih]
  | case2 rest h => 
    have e : flipPixels rest = rest := by
      unfold flipPixels
      split
      · exact absurd rfl (h _ _ _ _)
      · rfl
    rw [e, e]

theorem flipPixels_getElem? (rgb : List (Option Nat)) (p : Nat) (h : 3 * p + 2 < rgb.length) :
    (flipPixels rgb)[3 * p]? = rgb[3 * p + 2]? ∧
    (flipPixels rgb)[3 * p + 1]? = rgb[3 * p + 1]? ∧
    (flipPixels rgb)[3 * p + 2]? = rgb[3 * p]? := by
  induction p generalizing rgb with
  | zero =>
    match rgb, h with
    | a :: b :: c :: rest, _ => simp [flipPixels]
  | succ p ih =>
    match rgb, h with
    | a :: b :: c :: rest, h =>
      have h2 : 3 * p + 2 < rest.length := by simp at h; omega
      obtain ⟨i0, i1, i2⟩ := ih rest h2
      have e0 : 3 * (p + 1) = (3 * p) + 1 + 1 + 1 := by ring
      have e1 : 3 * (p + 1) + 1 = (3 * p + 1) + 1 + 1 + 1 := by ring
      have e2 : 3 * (p + 1) + 2 = (3 * p + 2) + 1 + 1 + 1 := by ring
      rw [e2, e1, e0]
      simp only [flipPixels, List.getElem?_cons_succ]
      exact ⟨i0, i1, i2⟩


theorem forLoop_unit {σ : Type} (stop : Nat) (body : Nat → σ → σ) (fuel i : Nat) (s : σ)
    (h : stop ≤ i + fuel) :
    forLoop stop 1 body fuel i s = (List.range' i (stop - i)).foldl (fun s j => body j s) s := by
  induction fuel generalizing i s with
  | zero =>
    have e : stop - i = 0 := by omega
    simp [forLoop, e]
  | succ f ih =>
    rw [forLoop]
    by_cases hi : i < stop
    · simp only [hi, if_true]
      rw [ih (i + 1) (body i s) (by omega)]
      have e : stop - i = (stop - (i + 1)) + 1 := by omega
      rw [e, List.range'_succ, List.foldl_cons]
    · have e : stop - i = 0 := by omega
      simp [hi, e]

theorem foldl_length_eq {ι α : Type} (F : ι → List α → List α) (idx : List ι)
    (hlen : ∀ i m, (F i m).length = m.length) (m : List α) :
    (idx.foldl (fun m i => F i m) m).length = m.length := by
  induction idx generalizing m with
  | nil => rfl
  | cons a rest ih => rw [List.foldl_cons, ih, hlen]

theorem foldl_keep {ι α : Type} (F : ι → List α → List α) (p : Nat) (v : Option α)
    (idx : List ι) (hkeep : ∀ i ∈ idx, ∀ m, m[p]? = v → (F i m)[p]? = v)
    (m : List α) (hm : m[p]? = v) :
    (idx.foldl (fun m i => F i m) m)[p]? = v := by
  induction idx generalizing m with
  | nil => exact hm
  | cons a rest ih =>
    rw [List.foldl_cons]
    apply ih (fun i hi => hkeep i (List.mem_cons_of_mem a hi))
    exact hkeep a (List.mem_cons_self a rest) m hm

theorem foldl_hit {ι α : Type} (F : ι → List α → List α) (p : Nat) (v : α)
    (idx : List ι) (i0 : ι)
    (hlen : ∀ i m, (F i m).length = m.length)
    (hother : ∀ i ∈ idx, i ≠ i0 → ∀ m, (F i m)[p]? = m[p]?)
    (hhit : ∀ m, p < m.length → (F i0 m)[p]? = some v)
    (hmem : i0 ∈ idx) (m : List α) (hp : p < m.length) :
    (idx.foldl (fun m i => F i m) m)[p]? = some v := by
  have hkeep : ∀ i ∈ idx, ∀ m : List α, m[p]? = some v → (F i m)[p]? = some v := by
    intro i hi m hm
    by_cases e : i = i0
    · subst e
      exact hhit m (List.getElem?_eq_some_iff.mp hm).1
    · rw [hother i hi e m, hm]
  induction idx generalizing m with
  | nil => simp at hmem
  | cons a rest ih =>
    rw [List.foldl_cons]
    by_cases e : a = i0
    · subst e
      exact foldl_keep F p (some v) rest
        (fun i hi => hkeep i (List.mem_cons_of_mem a hi)) (F a m) (hhit m hp)
    · have hmem2 : i0 ∈ rest := by
        rcases List.mem_cons.mp hmem with h | h
        · exact absurd h.symm e
        · exact h
      exact ih (fun i hi => hother i (List.mem_cons_of_mem a hi))
        hmem2 (F a m) (by rw [hlen]; exact hp)
        (fun i hi => hkeep i (List.mem_cons_of_mem a hi))

theorem index_ne_of_row_ne (c0 i i0 j j0 : Nat) (hj : j < c0) (hj0 : j0 < c0) (h : i ≠ i0) :
    i * c0 + j ≠ i0 * c0 + j0 := by
  intro e
  rcases Nat.lt_or_gt_of_ne h with hlt | hgt
  · have : (i + 1) * c0 ≤ i0 * c0 := Nat.mul_le_mul_right c0 hlt
    have e2 : (i + 1) * c0 = i * c0 + c0 := by ring
    omega
  · have : (i0 + 1) * c0 ≤ i * c0 := Nat.mul_le_mul_right c0 hgt
    have e2 : (i0 + 1) * c0 = i0 * c0 + c0 := by ring
    omega

theorem fillDepth_getElem? (rows0 cols0 : Nat) (d : Image) (i j : Nat)
    (hi : i < d.height) (hj : j < d.width) (hw : d.width ≤ cols0) (hr : i < rows0) :
    (fillDepth rows0 cols0 d)[i * cols0 + j]? = some (readFloat d.data (i * d.width + j)) := by
  unfold fillDepth
  rw [forLoop_unit _ _ _ _ _ (by omega)]
  have hinner : ∀ (r : Nat) (m : List (Option Float32)),
      forLoop d.width 1
        (fun j cv_depth => cv_depth.set (r * cols0 + j) (readFloat d.data (r * d.width + j)))
        d.width 0 m
      = (List.range' 0 d.width).foldl
        (fun m j => (fun j (m : List (Option Float32)) =>
          m.set (r * cols0 + j) (readFloat d.data (r * d.width + j))) j m) m := by
    intro r m
    rw [forLoop_unit _ _ _ _ _ (by omega)]
    simp
  simp only [hinner, Nat.sub_zero]
  have hp : i * cols0 + j < (List.replicate (rows0 * cols0) (none : Option Float32)).length := by
    rw [List.length_replicate]
    have : (i + 1) * cols0 ≤ rows0 * cols0 := Nat.mul_le_mul_right cols0 hr
    have e2 : (i + 1) * cols0 = i * cols0 + cols0 := by ring
    omega
  refine foldl_hit
    (fun r m => (List.range' 0 d.width).foldl
        (fun m j => (fun j (m : List (Option Float32)) =>
          m.set (r * cols0 + j) (readFloat d.data (r * d.width + j))) j m) m)
    (i * cols0 + j) (readFloat d.data (i * d.width + j)) (List.range' 0 d.height) i
    ?_ ?_ ?_ ?_ _ hp
  · intro r m
    exact foldl_length_eq _ _ (fun _ _ => List.length_set _ _ _) m
  · intro r _ hne m
    apply foldl_keep _ _ _ _ _ m rfl
    intro j2 hj2 m2 hm2
    have hj2lt : j2 < d.width := by
      have := (List.mem_range'_1.mp hj2).2
      omega
    have hne2 := index_ne_of_row_ne cols0 r i j2 j (by omega) (by omega) hne
    simp only [List.getElem?_set_ne hne2, hm2]
  · intro m hm
    refine foldl_hit _ _ _ (List.range' 0 d.width) j ?_ ?_ ?_ ?_ m hm
    · intro _ _
      exact List.length_set _ _ _
    · intro j2 _ hne m2
      have hne2 : i * cols0 + j2 ≠ i * cols0 + j := by omega
      simp only [List.getElem?_set_ne hne2]
    · intro m2 hm2
      simp only [List.getElem?_set_self hm2]
    · exact List.mem_range'_1.mpr ⟨by omega, by omega⟩
  · exact List.mem_range'_1.mpr ⟨by omega, by omega⟩


/-! ## Frames -/

theorem memcpy_getElem? {α : Type} (dst src : List (Option α)) (n k : Nat) (hk : k < n) :
    (memcpy dst src n)[k]? = some (src.getD k none) := by
  unfold memcpy
  rw [List.getElem?_append_left (by simpa using hk), List.getElem?_map,
    List.getElem?_range hk]
  rfl

theorem memcpy_payload (dst : List (Option Nat)) (data : List Nat) (n : Nat) :
    memcpy dst (data.map some) n = payloadPrefix data n ++ dst.drop n := by
  unfold memcpy payloadPrefix
  congr 1
  apply List.map_congr_left
  intro k _
  rw [List.getD_eq_getElem?_getD, List.getElem?_map]
  cases data[k]? <;> rfl

theorem flipLoop_length (n : Nat) (rgb : List (Option Nat)) (hlen : rgb.length = n * 3) :
    (flipLoop n rgb).length = rgb.length := by
  have h := flipLoop_eq_flipPixels n rgb [] hlen
  rw [List.append_nil, List.append_nil] at h
  rw [h, flipPixels_length]

theorem payloadPrefix_length (data : List Nat) (n : Nat) : (payloadPrefix data n).length = n := by
  simp [payloadPrefix]

/-- C5. When `getNext()` returns in a state with `currentFrame = i`, the frame is the
`i`-th one: the time stamp is that of colour record `i`, the colour buffer holds the
first `numPixels * 3` bytes of colour record `i` (flipped when `flipColors` is set), the
depth buffer holds the converted floats of depth record `i` at the offsets of a matrix
with the column count of depth record 0, `currentFrame` is `i + 1`, and `numFrames` and
the ingested sequences are unchanged. -/
theorem getNext_produces_current_frame (cvt : Float32 → Nat) (s s2 : ROSBagReader)
    (h : s.getNext cvt = .ok s2) :
    ∃ c d d0,
      vectorAt s.log_rgbd_data.images_rgb s.currentFrame = some c ∧
      vectorAt s.log_rgbd_data.images_d s.currentFrame = some d ∧
      vectorAt s.log_rgbd_data.images_d 0 = some d0 ∧
      s2.timestamp = c.stamp ∧
      s2.currentFrame = s.currentFrame + 1 ∧
      s2.numFrames = s.numFrames ∧
      s2.log_rgbd_data = s.log_rgbd_data ∧
      s2.decompressionBufferImage =
        (if s.flipColors = true then flipLoop s.numPixels (payloadPrefix c.data (s.numPixels * 3))
          else payloadPrefix c.data (s.numPixels * 3))
        ++ s.decompressionBufferImage.drop (s.numPixels * 3) ∧
      ∀ i j, i < d.height → j < d.width → d.width ≤ d0.width → i < d0.height →
        i * d0.width + j < s.numPixels → 4 * (i * d.width + j) + 4 ≤ d.data.length →
        s2.decompressionBufferDepth[i * d0.width + j]?
          = some (some (cvt ((d.data.drop (4 * (i * d.width + j))).take 4))) := by
  obtain ⟨c, d, d0, hc, hd, hd0, _, _, rfl⟩ := getCore_ok_inv cvt s s2 h
  refine ⟨c, d, d0, hc, hd, hd0, rfl, rfl, rfl, rfl, ?_, ?_⟩
  · simp only [memcpy_payload]
    cases s.flipColors with
    | false => simp
    | true =>
      simp only [if_true]
      rw [flipLoop_eq_flipPixels _ _ _ (payloadPrefix_length _ _)]
      have h2 := flipLoop_eq_flipPixels s.numPixels (payloadPrefix c.data (s.numPixels * 3)) []
        (payloadPrefix_length _ _)
      rw [List.append_nil, List.append_nil] at h2
      rw [h2]
  · intro i j hi hj hw hr hn hdata
    simp only
    rw [memcpy_getElem? _ _ _ _ hn, List.getD_eq_getElem?_getD]
    unfold convertTo
    rw [List.getElem?_map, fillDepth_getElem? d0.height d0.width d i j hi hj hw hr]
    simp [readFloat, hdata]

/-- Witness of C5: the first frame of `sampleReader`. -/
theorem getNext_produces_current_frame_witness :
    (sampleReader true).getNext sampleCvt = .ok (sampleReader1 true) ∧
    ∃ c d d0,
      vectorAt (sampleReader true).log_rgbd_data.images_rgb (sampleReader true).currentFrame
        = some c ∧
      vectorAt (sampleReader true).log_rgbd_data.images_d (sampleReader true).currentFrame
        = some d ∧
      vectorAt (sampleReader true).log_rgbd_data.images_d 0 = some d0 ∧
      (sampleReader1 true).timestamp = c.stamp ∧
      (sampleReader1 true).currentFrame = (sampleReader true).currentFrame + 1 ∧
      (sampleReader1 true).numFrames = (sampleReader true).numFrames ∧
      (sampleReader1 true).log_rgbd_data = (sampleReader true).log_rgbd_data ∧
      (sampleReader1 true).decompressionBufferImage =
        (if (sampleReader true).flipColors = true then
            flipLoop (sampleReader true).numPixels
              (payloadPrefix c.data ((sampleReader true).numPixels * 3))
          else payloadPrefix c.data ((sampleReader true).numPixels * 3))
        ++ (sampleReader true).decompressionBufferImage.drop ((sampleReader true).numPixels * 3) ∧
      ∀ i j, i < d.height → j < d.width → d.width ≤ d0.width → i < d0.height →
        i * d0.width + j < (sampleReader true).numPixels →
        4 * (i * d.width + j) + 4 ≤ d.data.length →
        (sampleReader1 true).decompressionBufferDepth[i * d0.width + j]?
          = some (some (sampleCvt ((d.data.drop (4 * (i * d.width + j))).take 4))) :=
  ⟨rfl, getNext_produces_current_frame sampleCvt (sampleReader true) (sampleReader1 true) rfl⟩

/-- C6, as the code has it. `getNext()` ends fatally, without returning a frame, whenever
`currentFrame` is outside the colour sequence or outside the depth sequence, and whenever
the size of the current colour record as the code computes it, the `uint32_t` product
`step * height`, differs from `numPixels * 3` modulo `2^32`; in particular whenever the
two are below `2^31` and differ. -/
theorem getNext_fatal_on_range_or_colour_size (cvt : Float32 → Nat) (s : ROSBagReader)
    (h : s.currentFrame < 0 ∨
      (s.log_rgbd_data.images_rgb.length : Int) ≤ s.currentFrame ∨
      (s.log_rgbd_data.images_d.length : Int) ≤ s.currentFrame ∨
      (∃ c, vectorAt s.log_rgbd_data.images_rgb s.currentFrame = some c ∧
        (c.step * c.height) % 2 ^ 32 ≠ (s.numPixels * 3) % 2 ^ 32) ∨
      ∃ c, vectorAt s.log_rgbd_data.images_rgb s.currentFrame = some c ∧
        c.step * c.height < 2 ^ 31 ∧ s.numPixels * 3 < 2 ^ 31 ∧
        c.step * c.height ≠ s.numPixels * 3) :
    (s.getNext cvt).isFatal = true ∧ (∀ s2, s.getNext cvt ≠ .ok s2) ∧
    (s.getNext cvt).state.currentFrame = s.currentFrame := by
  have key : (s.getNext cvt).isFatal = true ∧
      (s.getNext cvt).state.currentFrame = s.currentFrame := by
    unfold ROSBagReader.getNext
    rcases getCore_cases cvt s with ⟨hf, hcf, _, _⟩ | ⟨c, d, d0, hc, hd, _, _, himg, _⟩
    · exact ⟨hf, hcf⟩
    · exfalso
      have hlc := vectorAt_lt _ _ _ hc
      have hld := vectorAt_lt _ _ _ hd
      rw [sizeTest_iff] at himg
      rcases h with h | h | h | ⟨c2, hc2, hne⟩ | ⟨c2, hc2, h1, h2, hne⟩
      · omega
      · omega
      · omega
      · rw [hc] at hc2
        injection hc2 with hc2
        subst hc2
        exact hne himg
      · rw [hc] at hc2
        injection hc2 with hc2
        subst hc2
        rw [Nat.mod_eq_of_lt (by omega), Nat.mod_eq_of_lt (by omega)] at himg
        exact hne himg
  refine ⟨key.1, ?_, key.2⟩
  intro s2 hs2
  rw [hs2] at key
  simp [Outcome.isFatal] at key

/-- Witness of C6: frame 8 of a log with ten colour records and eight depth records. -/
theorem getNext_fatal_on_range_or_colour_size_witness :
    ((sampleUnpairedReader.log_rgbd_data.images_d.length : Int) ≤ sampleUnpairedReader.currentFrame) ∧
    (sampleUnpairedReader.getNext sampleCvt).isFatal = true ∧
    (∀ s2, sampleUnpairedReader.getNext sampleCvt ≠ .ok s2) ∧
    (sampleUnpairedReader.getNext sampleCvt).state.currentFrame
      = sampleUnpairedReader.currentFrame :=
  ⟨by decide,
    getNext_fatal_on_range_or_colour_size sampleCvt sampleUnpairedReader
      (Or.inr (Or.inr (Or.inl (by decide))))⟩

/-- C6 as stated fails: the current colour record of `sampleWrappedColourReader` declares
`step * height = 4294967295 * 4294967293` and carries four bytes, neither of which is
`numPixels * 3 = 3`, and `getNext()` returns: the `uint32_t` product is 3. -/
theorem getNext_accepts_wrapped_colour_size :
    (∃ c, vectorAt sampleWrappedColourReader.log_rgbd_data.images_rgb
        sampleWrappedColourReader.currentFrame = some c ∧
      c.step * c.height ≠ sampleWrappedColourReader.numPixels * 3 ∧
      c.data.length ≠ sampleWrappedColourReader.numPixels * 3 ∧
      uint32Mul c.step c.height = 3) ∧
    (sampleWrappedColourReader.getNext sampleCvt).isFatal = false ∧
    ∃ s2, sampleWrappedColourReader.getNext sampleCvt = .ok s2 ∧ s2.currentFrame = 1 :=
  ⟨⟨_, rfl, by decide, by decide, by decide⟩, by decide, _, rfl, rfl⟩

/-- C7, as the code has it. `getNext()` ends fatally whenever the `uint32_t` product
`step * height` of the current depth record differs from `numPixels * 4` modulo `2^32`
(in particular whenever the two are below `2^31` and differ), and whenever its payload
has exactly `numPixels * 4` bytes but its encoding is not "32FC1". -/
theorem getNext_fatal_on_depth_format (cvt : Float32 → Nat) (s : ROSBagReader) (d : Image)
    (hd : vectorAt s.log_rgbd_data.images_d s.currentFrame = some d)
    (h : (d.step * d.height) % 2 ^ 32 ≠ (s.numPixels * 4) % 2 ^ 32 ∨
      (d.step * d.height < 2 ^ 31 ∧ s.numPixels * 4 < 2 ^ 31 ∧
        d.step * d.height ≠ s.numPixels * 4) ∨
      (d.data.length = s.numPixels * 4 ∧ d.encoding ≠ "32FC1")) :
    (s.getNext cvt).isFatal = true ∧ ∀ s2, s.getNext cvt ≠ .ok s2 := by
  have key : (s.getNext cvt).isFatal = true := by
    unfold ROSBagReader.getNext
    rcases getCore_cases cvt s with ⟨hf, _⟩ | ⟨c, d2, d0, _, hd2, _, hchk, _, _⟩
    · exact hf
    · exfalso
      rw [hd] at hd2
      injection hd2 with hd2
      subst hd2
      have hsz := (sizeTest_iff _ _ _).mp hchk.1
      rcases h with h | ⟨h1, h2, h⟩ | ⟨_, h⟩
      · exact h hsz
      · rw [Nat.mod_eq_of_lt (by omega), Nat.mod_eq_of_lt (by omega)] at hsz
        exact h hsz
      · exact h hchk.2
  refine ⟨key, ?_⟩
  intro s2 hs2
  rw [hs2] at key
  simp [Outcome.isFatal] at key

/-- Witness of C7: a depth record of the expected size with a 16-bit encoding. -/
theorem getNext_fatal_on_depth_format_witness :
    (sampleWrongEncodingReader.getNext sampleCvt).isFatal = true ∧
    ∀ s2, sampleWrongEncodingReader.getNext sampleCvt ≠ .ok s2 :=
  getNext_fatal_on_depth_format sampleCvt sampleWrongEncodingReader
    { stamp := 5, height := 1, width := 1, encoding := "16UC1", step := 4, data := [11, 0, 0, 0] }
    rfl (Or.inr (Or.inr ⟨by decide, by decide⟩))

/-- C7 as stated fails: the current depth record of `sampleLongPayloadReader` has a
payload of eight bytes where `numPixels * 4` is four, and `getNext()` returns; and the
current depth record of `sampleWrappedDepthReader` has sixteen bytes and declares
`step * height = 2^32 + 4`, and `getNext()` returns as well. -/
theorem getNext_accepts_long_depth_payload :
    ((∃ d, vectorAt sampleLongPayloadReader.log_rgbd_data.images_d
        sampleLongPayloadReader.currentFrame = some d ∧
      d.data.length ≠ sampleLongPayloadReader.numPixels * 4) ∧
    (sampleLongPayloadReader.getNext sampleCvt).isFatal = false ∧
    ∃ s2, sampleLongPayloadReader.getNext sampleCvt = .ok s2 ∧ s2.currentFrame = 1) ∧
    ((∃ d, vectorAt sampleWrappedDepthReader.log_rgbd_data.images_d
        sampleWrappedDepthReader.currentFrame = some d ∧
      d.data.length ≠ sampleWrappedDepthReader.numPixels * 4 ∧
      d.step * d.height ≠ sampleWrappedDepthReader.numPixels * 4) ∧
    (sampleWrappedDepthReader.getNext sampleCvt).isFatal = false ∧
    ∃ s2, sampleWrappedDepthReader.getNext sampleCvt = .ok s2 ∧ s2.currentFrame = 1) :=
  ⟨⟨⟨_, rfl, by decide⟩, by decide, _, rfl, rfl⟩,
    ⟨⟨_, rfl, by decide, by decide⟩, by decide, _, rfl, rfl⟩⟩

/-- C9. On a colour buffer of `numPixels * 3` bytes the flip loop exchanges byte 0 and
byte 2 of every pixel and keeps byte 1; run twice it gives the buffer back; it keeps the
length; and it is what `getNext()` applies to the copied payload when `flipColors` is
set. -/
theorem flipLoop_swaps_and_is_involutive (n : Nat) (rgb : List (Option Nat))
    (hlen : rgb.length = n * 3) :
    (∀ p, p < n →
      (flipLoop n rgb)[3 * p]? = rgb[3 * p + 2]? ∧
      (flipLoop n rgb)[3 * p + 1]? = rgb[3 * p + 1]? ∧
      (flipLoop n rgb)[3 * p + 2]? = rgb[3 * p]?) ∧
    flipLoop n (flipLoop n rgb) = rgb ∧
    (flipLoop n rgb).length = rgb.length ∧
    (∀ extra, forLoop (n * 3) 3 swapBody (n + extra) 0 rgb = flipLoop n rgb) ∧
    (∀ (cvt : Float32 → Nat) (s s2 : ROSBagReader), s.flipColors = true → s.numPixels = n →
      s.getNext cvt = .ok s2 →
      ∃ c, vectorAt s.log_rgbd_data.images_rgb s.currentFrame = some c ∧
        s2.decompressionBufferImage =
          flipLoop n (memcpy s.decompressionBufferImage (c.data.map some) (n * 3))) := by
  have h := flipLoop_eq_flipPixels n rgb [] hlen
  rw [List.append_nil, List.append_nil] at h
  have h2 := flipLoop_eq_flipPixels n (flipPixels rgb) []
    (by rw [flipPixels_length]; exact hlen)
  rw [List.append_nil, List.append_nil] at h2
  refine ⟨?_, ?_, ?_, ?_, ?_⟩
  · intro p hp
    rw [h]
    exact flipPixels_getElem? rgb p (by omega)
  · rw [h, h2, flipPixels_flipPixels]
  · rw [h, flipPixels_length]
  · intro extra
    exact forLoop_fuel_enough (n * 3) 3 swapBody n extra 0 rgb (by omega)
  · intro cvt s s2 hflip hn hok
    obtain ⟨c, d, d0, hc, _, _, _, _, rfl⟩ := getCore_ok_inv cvt s s2 hok
    refine ⟨c, hc, ?_⟩
    simp only [hflip, if_true, hn]

/-- Witness of C9: a buffer of two pixels. -/
theorem flipLoop_swaps_and_is_involutive_witness :
    flipLoop 2 [some 1, some 2, some 3, some 4, some 5, some 6]
        = [some 3, some 2, some 1, some 6, some 5, some 4] ∧
    flipLoop 2 (flipLoop 2 [some 1, some 2, some 3, some 4, some 5, some 6])
        = [some 1, some 2, some 3, some 4, some 5, some 6] :=
  ⟨by decide,
    (flipLoop_swaps_and_is_involutive 2 [some 1, some 2, some 3, some 4, some 5, some 6]
      (by decide)).2.1⟩

/-- C10, as the code has it. In every state whose cursor is not `INT_MAX`, `hasMore()` is
true exactly when `currentFrame + 1 < numFrames` and false exactly when
`currentFrame + 1 >= numFrames`; in a rewound reader of three frames it is false after two
`getNext()` calls that returned. -/
theorem hasMore_iff (s : ROSBagReader) (hmax : s.currentFrame ≠ 2147483647) :
    (s.hasMore = true ↔ s.currentFrame + 1 < s.numFrames) ∧
    (s.hasMore = false ↔ s.currentFrame + 1 ≥ s.numFrames) ∧
    (∀ (cvt : Float32 → Nat) (s1 s2 : ROSBagReader), s.numFrames = 3 → s.rewound = true →
      s.getNext cvt = .ok s1 → s1.getNext cvt = .ok s2 → s2.hasMore = false) := by
  refine ⟨by simp [hasMore_eq_of_ne_max s hmax], by simp [hasMore_eq_of_ne_max s hmax], ?_⟩
  intro cvt s1 s2 hn hr h1 h2
  obtain ⟨_, _, _, _, _, _, _, _, rfl⟩ := getCore_ok_inv cvt s s1 h1
  obtain ⟨_, _, _, _, _, _, _, _, rfl⟩ := getCore_ok_inv cvt _ s2 h2
  have h0 : s.currentFrame = 0 := by simpa [ROSBagReader.rewound] using hr
  rw [hasMore_eq_of_ne_max _ (by simp only; omega)]
  simp only [decide_eq_false_iff_not, not_lt]
  omega

/-- Witness of C10: `sampleReader` has three frames; after two frames `hasMore()` is
false. -/
theorem hasMore_iff_witness :
    (sampleReader false).numFrames = 3 ∧ (sampleReader false).rewound = true ∧
    (sampleReader false).getNext sampleCvt = .ok (sampleReader1 false) ∧
    (sampleReader1 false).getNext sampleCvt = .ok (sampleReader2 false) ∧
    (sampleReader2 false).hasMore = false :=
  ⟨rfl, rfl, rfl, rfl,
    (hasMore_iff (sampleReader false) (by decide)).2.2 sampleCvt (sampleReader1 false)
      (sampleReader2 false) rfl rfl rfl rfl⟩

/-- C10 as stated fails: with the cursor at `INT_MAX` and three frames, `hasMore()` is
true although `currentFrame + 1 >= numFrames`. -/
theorem hasMore_true_at_int_max :
    sampleMaxCursorReader.currentFrame = 2147483647 ∧ sampleMaxCursorReader.numFrames = 3 ∧
    sampleMaxCursorReader.currentFrame + 1 ≥ sampleMaxCursorReader.numFrames ∧
    sampleMaxCursorReader.hasMore = true :=
  ⟨rfl, rfl, by decide, by decide⟩

/-! ## Navigation -/

/-- C11. `rewound()` right after `rewind()` is true, in every state; and after `rewind()`
and one `getNext()` that returned, `rewound()` is false. -/
theorem rewound_after_rewind (s : ROSBagReader) :
    s.rewind.rewound = true ∧
    ∀ (cvt : Float32 → Nat) (s2 : ROSBagReader),
      s.rewind.getNext cvt = .ok s2 → s2.rewound = false := by
  refine ⟨by simp [ROSBagReader.rewind, ROSBagReader.rewound], ?_⟩
  intro cvt s2 h
  obtain ⟨_, _, _, _, _, _, _, _, rfl⟩ := getCore_ok_inv cvt _ s2 h
  simp [ROSBagReader.rewind, ROSBagReader.rewound]

/-- Witness of C11: `sampleReader2` rewound, then advanced by one frame. -/
theorem rewound_after_rewind_witness :
    (sampleReader2 true).rewind.rewound = true ∧
    (sampleReader2 true).rewind.getNext sampleCvt = .ok (sampleReader1 true) ∧
    (sampleReader1 true).rewound = false :=
  ⟨(rewound_after_rewind (sampleReader2 true)).1, rfl,
    (rewound_after_rewind (sampleReader2 true)).2 sampleCvt (sampleReader1 true) rfl⟩

/-- C13. `fastForward(frame)` returns, for every state and every `frame`, and leaves the
object as it was: cursor, frame count, time stamp and both buffers. -/
theorem fastForward_no_change (s : ROSBagReader) (frame : Int) :
    s.fastForward frame = .ok s ∧
    (s.fastForward frame).isFatal = false ∧
    (s.fastForward frame).state.currentFrame = s.currentFrame ∧
    (s.fastForward frame).state.numFrames = s.numFrames ∧
    (s.fastForward frame).state.timestamp = s.timestamp ∧
    (s.fastForward frame).state.decompressionBufferDepth = s.decompressionBufferDepth ∧
    (s.fastForward frame).state.decompressionBufferImage = s.decompressionBufferImage :=
  ⟨rfl, rfl, rfl, rfl, rfl, rfl, rfl⟩


/-! ## File type and ingestion order -/

theorem ends_with_iff (e l : List Char) :
    (¬ e.length > l.length ∧ e.reverse = l.reverse.take e.length) ↔ ∃ stem, l = stem ++ e := by
  constructor
  · rintro ⟨_, h⟩
    refine ⟨(l.reverse.drop e.length).reverse, ?_⟩
    have h2 : l.reverse = e.reverse ++ l.reverse.drop e.length := by
      rw [h, List.take_append_drop]
    have h3 := congrArg List.reverse h2
    rw [List.reverse_reverse, List.reverse_append, List.reverse_reverse] at h3
    exact h3
  · rintro ⟨stem, rfl⟩
    refine ⟨by simp, ?_⟩
    rw [List.reverse_append, ← List.length_reverse e, List.take_left]

theorem isRosBag_eq_true_iff (value : String) :
    isRosBag value = true ↔ ∃ stem : String, value = stem ++ ".bag" := by
  have key : isRosBag value = true ↔
      (¬ (".bag" : String).data.length > value.data.length ∧
        (".bag" : String).data.reverse = value.data.reverse.take (".bag" : String).data.length) := by
    unfold isRosBag
    simp only [← String.length_data]
    by_cases h : (".bag" : String).data.length > value.data.length
    · simp [h]
    · simp only [h, if_false, beq_iff_eq, not_false_eq_true, true_and]
  rw [key, ends_with_iff]
  constructor
  · rintro ⟨stem, h⟩
    exact ⟨⟨stem⟩, String.ext (by rw [h, String.data_append])⟩
  · rintro ⟨stem, h⟩
    exact ⟨stem.data, by rw [h, String.data_append]⟩

/-- C12. `isRosBag(s)` is true exactly for the strings that end in ".bag"; a string of
fewer than four characters is rejected, the comparison is case-sensitive, and
"scan.bag" is accepted while "scan.bagx" and "scan" are not. -/
theorem isRosBag_iff_suffix (value : String) :
    (isRosBag value = true ↔ ∃ stem : String, value = stem ++ ".bag") ∧
    (value.length < 4 → isRosBag value = false) ∧
    isRosBag "scan.bag" = true ∧ isRosBag "scan.bagx" = false ∧ isRosBag "scan" = false ∧
    isRosBag "scan.BAG" = false := by
  refine ⟨isRosBag_eq_true_iff value, ?_, by decide, by decide, by decide, by decide⟩
  intro hlen
  cases hb : isRosBag value with
  | false => rfl
  | true =>
    obtain ⟨stem, rfl⟩ := (isRosBag_eq_true_iff value).mp hb
    rw [String.length_append] at hlen
    have : (".bag" : String).length = 4 := by decide
    omega

theorem topicMatches_iff (m : MessageInstance) (t : String) :
    topicMatches m t = true ↔ (m.topic = t ∨ "/" ++ m.topic = t) := by
  simp [topicMatches, MessageInstance.getTopic]

theorem depthImageOf_eq_some (m : MessageInstance) (img : Image) :
    depthImageOf m = some img ↔
      (m.topic = image_d_topic ∨ "/" ++ m.topic = image_d_topic) ∧ m.payload = .image img := by
  unfold depthImageOf MessageInstance.instantiateImage
  rw [← topicMatches_iff]
  cases topicMatches m image_d_topic <;> cases m.payload <;> simp

theorem colourImageOf_eq_some (m : MessageInstance) (img : Image) :
    colourImageOf m = some img ↔
      (m.topic = image_rgb_topic ∨ "/" ++ m.topic = image_rgb_topic) ∧
        m.payload = .image img := by
  unfold colourImageOf MessageInstance.instantiateImage
  rw [← topicMatches_iff]
  cases topicMatches m image_rgb_topic <;> cases m.payload <;> simp

/-- C14. `loadBag` appends to the depth sequence, in container order and once each, the
images of exactly those messages whose topic is the depth topic or becomes it when "/"
is put in front, and likewise to the colour sequence for the colour topic; a message on
any other topic contributes to neither sequence. -/
theorem loadBag_subsequences (view : List MessageInstance) (log : ROSRgbdData) :
    (loadBag view log).images_d = log.images_d ++ view.filterMap
      (fun m => if m.topic = image_d_topic ∨ "/" ++ m.topic = image_d_topic
        then m.instantiateImage else none) ∧
    (loadBag view log).images_rgb = log.images_rgb ++ view.filterMap
      (fun m => if m.topic = image_rgb_topic ∨ "/" ++ m.topic = image_rgb_topic
        then m.instantiateImage else none) ∧
    (∀ img, img ∈ (loadBag view { images_rgb := [], images_d := [], cam_info := none }).images_d ↔
      ∃ m ∈ view, (m.topic = image_d_topic ∨ "/" ++ m.topic = image_d_topic) ∧
        m.payload = .image img) ∧
    (∀ img, img ∈ (loadBag view { images_rgb := [], images_d := [], cam_info := none }).images_rgb ↔
      ∃ m ∈ view, (m.topic = image_rgb_topic ∨ "/" ++ m.topic = image_rgb_topic) ∧
        m.payload = .image img) := by
  have ed : (fun m : MessageInstance =>
      if m.topic = image_d_topic ∨ "/" ++ m.topic = image_d_topic
        then m.instantiateImage else none) = depthImageOf := by
    funext m
    unfold depthImageOf
    by_cases h : topicMatches m image_d_topic = true
    · rw [if_pos h, if_pos ((topicMatches_iff m _).mp h)]
    · rw [if_neg h, if_neg (fun h2 => h ((topicMatches_iff m _).mpr h2))]
  have ec : (fun m : MessageInstance =>
      if m.topic = image_rgb_topic ∨ "/" ++ m.topic = image_rgb_topic
        then m.instantiateImage else none) = colourImageOf := by
    funext m
    unfold colourImageOf
    by_cases h : topicMatches m image_rgb_topic = true
    · rw [if_pos h, if_pos ((topicMatches_iff m _).mp h)]
    · rw [if_neg h, if_neg (fun h2 => h ((topicMatches_iff m _).mpr h2))]
  refine ⟨?_, ?_, ?_, ?_⟩
  · rw [ed, loadBag_images_d]
  · rw [ec, loadBag_images_rgb]
  · intro img
    rw [loadBag_images_d, List.nil_append, List.mem_filterMap]
    simp only [depthImageOf_eq_some]
  · intro img
    rw [loadBag_images_rgb, List.nil_append, List.mem_filterMap]
    simp only [colourImageOf_eq_some]

/-- Witness of C14 on `sampleMixedView`: two depth images and two colour images, in the
order of the view. -/
theorem loadBag_subsequences_witness :
    (loadBag sampleMixedView { images_rgb := [], images_d := [], cam_info := none }).images_d
      = [sampleDepth 3 [11, 0, 0, 0], sampleDepth 4 [12, 0, 0, 0]] ∧
    (loadBag sampleMixedView { images_rgb := [], images_d := [], cam_info := none }).images_rgb
      = [sampleColour 1 1 2 3, sampleColour 5 4 5 6] :=
  ⟨((loadBag_subsequences sampleMixedView _).1).trans (by decide),
    ((loadBag_subsequences sampleMixedView _).2.1).trans (by decide)⟩


/-! ## Buffers across calls -/

theorem memcpy_length {α : Type} (dst src : List (Option α)) (n : Nat) :
    (memcpy dst src n).length = n + (dst.length - n) := by
  simp [memcpy]

theorem payloadPrefix_eq_take (data : List Nat) (n : Nat) (h : n ≤ data.length) :
    payloadPrefix data n = (data.take n).map some := by
  unfold payloadPrefix
  apply List.ext_getElem?
  intro k
  rw [List.getElem?_map, List.getElem?_map, List.getElem?_take]
  by_cases hk : k < n
  · rw [List.getElem?_range hk, if_pos hk]
    have hk2 : k < data.length := by omega
    simp only [Option.map_some', List.getElem?_eq_getElem hk2]
  · rw [if_neg hk, List.getElem?_eq_none (by simpa using hk)]
    rfl

/-- The buffers keep the sizes the constructor gave them. -/
theorem reachable_buffer_length (cvt : Float32 → Nat) (s : ROSBagReader)
    (h : Reachable cvt s) :
    s.decompressionBufferImage.length = s.numPixels * 3 ∧
    s.decompressionBufferDepth.length = s.numPixels := by
  induction h with
  | construct view file flipColors numPixels timestamp =>
    simp [ROSBagReader.construct]
  | step s s2 op _ hrun ih =>
    obtain ⟨hi, hd⟩ := ih
    have hcore : ∀ (t t2 : ROSBagReader), t.numPixels = s.numPixels →
        t.decompressionBufferImage = s.decompressionBufferImage →
        t.decompressionBufferDepth = s.decompressionBufferDepth →
        t.getCore cvt = .ok t2 →
        t2.decompressionBufferImage.length = t2.numPixels * 3 ∧
        t2.decompressionBufferDepth.length = t2.numPixels := by
      intro t t2 hn hbi hbd hok
      obtain ⟨c, d, d0, _, _, _, _, _, rfl⟩ := getCore_ok_inv cvt t t2 hok
      have hl : (memcpy t.decompressionBufferImage (List.map some c.data) (t.numPixels * 3)).length
          = t.numPixels * 3 := by
        rw [memcpy_length, hbi, hi, hn]; omega
      refine ⟨?_, ?_⟩
      · simp only
        cases t.flipColors with
        | false => simpa using hl
        | true =>
          simp only [if_true]
          rw [flipLoop_length _ _ hl, hl]
      · simp only
        rw [memcpy_length, hbd, hd, hn]; omega
    cases op with
    | getNext => exact hcore s s2 rfl rfl rfl hrun
    | getBack => exact hcore { s with currentFrame := s.numFrames } s2 rfl rfl rfl hrun
    | rewind =>
      simp only [Op.run, ROSBagReader.rewind] at hrun
      injection hrun with hrun
      subst hrun
      exact ⟨hi, hd⟩
    | fastForward frame =>
      simp only [Op.run, ROSBagReader.fastForward] at hrun
      injection hrun with hrun
      subst hrun
      exact ⟨hi, hd⟩
    | setAuto value =>
      simp only [Op.run, ROSBagReader.setAuto] at hrun
      injection hrun with hrun
      subst hrun
      exact ⟨hi, hd⟩
    | hasMore =>
      simp only [Op.run] at hrun
      injection hrun with hrun
      subst hrun
      exact ⟨hi, hd⟩
    | rewound =>
      simp only [Op.run] at hrun
      injection hrun with hrun
      subst hrun
      exact ⟨hi, hd⟩
    | getNumFrames =>
      simp only [Op.run] at hrun
      injection hrun with hrun
      subst hrun
      exact ⟨hi, hd⟩
    | getFile =>
      simp only [Op.run] at hrun
      injection hrun with hrun
      subst hrun
      exact ⟨hi, hd⟩

/-- C15. With `flipColors = false`, when `getNext()` returns at index `i` the colour
buffer is, byte for byte, the first `numPixels * 3` bytes of the payload of colour record
`i`, whatever the buffer held before the call. -/
theorem getNext_colour_is_payload (cvt : Float32 → Nat) (s s2 : ROSBagReader)
    (hflip : s.flipColors = false)
    (hbuf : s.decompressionBufferImage.length = s.numPixels * 3)
    (h : s.getNext cvt = .ok s2) :
    ∃ c, vectorAt s.log_rgbd_data.images_rgb s.currentFrame = some c ∧
      s2.decompressionBufferImage = payloadPrefix c.data (s.numPixels * 3) ∧
      (s.numPixels * 3 ≤ c.data.length →
        s2.decompressionBufferImage = (c.data.take (s.numPixels * 3)).map some) ∧
      ∀ before : List (Option Nat), before.length = s.numPixels * 3 →
        ∃ s3, ROSBagReader.getNext cvt { s with decompressionBufferImage := before } = .ok s3 ∧
          s3.decompressionBufferImage = s2.decompressionBufferImage := by
  obtain ⟨c, d, d0, hc, hd, hd0, hchk, himg, rfl⟩ := getCore_ok_inv cvt s s2 h
  have hdrop : ∀ buf : List (Option Nat), buf.length = s.numPixels * 3 →
      memcpy buf (c.data.map some) (s.numPixels * 3) = payloadPrefix c.data (s.numPixels * 3) := by
    intro buf hb
    rw [memcpy_payload, List.drop_eq_nil_of_le (by omega), List.append_nil]
  have e : (if s.flipColors = true then
        flipLoop s.numPixels
          (memcpy s.decompressionBufferImage (c.data.map some) (s.numPixels * 3))
      else memcpy s.decompressionBufferImage (c.data.map some) (s.numPixels * 3))
      = payloadPrefix c.data (s.numPixels * 3) := by
    rw [hflip, hdrop _ hbuf]
    simp
  refine ⟨c, hc, e, ?_, ?_⟩
  · intro hlen
    simp only
    rw [e, payloadPrefix_eq_take _ _ hlen]
  · intro before hb
    have hok := getCore_ok cvt { s with decompressionBufferImage := before } c d d0 hc hd hd0
      hchk himg
    refine ⟨_, hok, ?_⟩
    simp only
    rw [e, hflip, hdrop _ hb]
    simp

/-- Witness of C15: the first frame of `sampleReader` without flipping. -/
theorem getNext_colour_is_payload_witness :
    (sampleReader false).getNext sampleCvt = .ok (sampleReader1 false) ∧
    ∃ c, vectorAt (sampleReader false).log_rgbd_data.images_rgb (sampleReader false).currentFrame
        = some c ∧
      (sampleReader1 false).decompressionBufferImage
        = payloadPrefix c.data ((sampleReader false).numPixels * 3) ∧
      ((sampleReader false).numPixels * 3 ≤ c.data.length →
        (sampleReader1 false).decompressionBufferImage
          = (c.data.take ((sampleReader false).numPixels * 3)).map some) ∧
      ∀ before : List (Option Nat), before.length = (sampleReader false).numPixels * 3 →
        ∃ s3, ROSBagReader.getNext sampleCvt
            { sampleReader false with decompressionBufferImage := before } = .ok s3 ∧
          s3.decompressionBufferImage = (sampleReader1 false).decompressionBufferImage :=
  ⟨rfl, getNext_colour_is_payload sampleCvt (sampleReader false) (sampleReader1 false)
    rfl rfl rfl⟩

/-- C18, as the code has it. In a state with `0 <= currentFrame < INT_MAX`, `getNext()`
returns only if `currentFrame` is below the lengths of both sequences, the current depth
record has `step * height` equal to `numPixels * 4` modulo `2^32` and encoding "32FC1",
and the current colour record has `step * height` equal to `numPixels * 3` modulo `2^32`;
and it returns whenever these hold and the frame is in bounds (`FrameInBounds`). With
`numFrames` the length of the colour sequence, `hasMore() = true` puts `currentFrame`
inside both sequences whenever the depth sequence has at least `numFrames - 1` records;
when it has fewer, `hasMore()` is true with the cursor at the length of the depth
sequence and `getNext()` does not return there. With ten colour and eight depth records
`hasMore()` is true at `currentFrame = 8` and `getNext()` does not return. -/
theorem getNext_returns_iff (cvt : Float32 → Nat) (s : ROSBagReader)
    (h0 : 0 ≤ s.currentFrame) (hmax : s.currentFrame < 2147483647)
    (hn : s.numFrames = (s.log_rgbd_data.images_rgb.length : Int)) :
    ((∃ s2, s.getNext cvt = .ok s2) →
      s.currentFrame < (s.log_rgbd_data.images_rgb.length : Int) ∧
      s.currentFrame < (s.log_rgbd_data.images_d.length : Int) ∧
      ∃ c d, s.log_rgbd_data.images_rgb[s.currentFrame.toNat]? = some c ∧
        s.log_rgbd_data.images_d[s.currentFrame.toNat]? = some d ∧
        (d.step * d.height) % 2 ^ 32 = (s.numPixels * 4) % 2 ^ 32 ∧ d.encoding = "32FC1" ∧
        (c.step * c.height) % 2 ^ 32 = (s.numPixels * 3) % 2 ^ 32) ∧
    (∀ c d d0, s.log_rgbd_data.images_rgb[s.currentFrame.toNat]? = some c →
      s.log_rgbd_data.images_d[s.currentFrame.toNat]? = some d →
      s.log_rgbd_data.images_d[0]? = some d0 →
      (d.step * d.height) % 2 ^ 32 = (s.numPixels * 4) % 2 ^ 32 → d.encoding = "32FC1" →
      (c.step * c.height) % 2 ^ 32 = (s.numPixels * 3) % 2 ^ 32 →
      FrameInBounds s.numPixels c d d0 →
      ∃ s2, s.getNext cvt = .ok s2) ∧
    (s.log_rgbd_data.images_rgb.length ≤ s.log_rgbd_data.images_d.length + 1 →
      s.hasMore = true →
      s.currentFrame < (s.log_rgbd_data.images_rgb.length : Int) ∧
      s.currentFrame < (s.log_rgbd_data.images_d.length : Int)) ∧
    (s.log_rgbd_data.images_d.length + 1 < s.log_rgbd_data.images_rgb.length →
      s.log_rgbd_data.images_d.length < 2147483647 →
      ROSBagReader.hasMore { s with currentFrame := s.log_rgbd_data.images_d.length } = true ∧
      (ROSBagReader.getNext cvt
        { s with currentFrame := s.log_rgbd_data.images_d.length }).isFatal = true) ∧
    (sampleUnpairedReader.hasMore = true ∧
      (sampleUnpairedReader.getNext sampleCvt).isFatal = true) := by
  refine ⟨?_, ?_, ?_, ?_, by decide, by decide⟩
  · rintro ⟨s2, hs2⟩
    obtain ⟨c, d, d0, hc, hd, _, hchk, himg, _⟩ := getCore_ok_inv cvt s s2 hs2
    exact ⟨(vectorAt_lt _ _ _ hc).2, (vectorAt_lt _ _ _ hd).2, c, d,
      ((vectorAt_eq_some_iff _ _ _).mp hc).2, ((vectorAt_eq_some_iff _ _ _).mp hd).2,
      (sizeTest_iff _ _ _).mp hchk.1, hchk.2, (sizeTest_iff _ _ _).mp himg⟩
  · intro c d d0 hc hd hd0 hsz henc himg _
    have hvc : vectorAt s.log_rgbd_data.images_rgb s.currentFrame = some c :=
      (vectorAt_eq_some_iff _ _ _).mpr ⟨h0, hc⟩
    have hvd : vectorAt s.log_rgbd_data.images_d s.currentFrame = some d :=
      (vectorAt_eq_some_iff _ _ _).mpr ⟨h0, hd⟩
    have hvd0 : vectorAt s.log_rgbd_data.images_d 0 = some d0 :=
      (vectorAt_eq_some_iff _ _ _).mpr ⟨le_refl _, by simpa using hd0⟩
    exact ⟨_, getCore_ok cvt s c d d0 hvc hvd hvd0 ⟨(sizeTest_iff _ _ _).mpr hsz, henc⟩
      ((sizeTest_iff _ _ _).mpr himg)⟩
  · intro hlen hm
    rw [hasMore_eq_of_ne_max s (by omega)] at hm
    simp only [decide_eq_true_eq] at hm
    omega
  · intro hlen hdmax
    refine ⟨?_, ?_⟩
    · rw [hasMore_eq_of_ne_max _ (by simp only; omega)]
      simp only [decide_eq_true_eq]
      omega
    · have hnone : vectorAt s.log_rgbd_data.images_d
          (s.log_rgbd_data.images_d.length : Int) = none := by
        rw [vectorAt_eq_none_iff]
        right
        exact le_refl _
      unfold ROSBagReader.getNext
      rcases getCore_cases cvt { s with currentFrame := s.log_rgbd_data.images_d.length }
        with ⟨hf, _⟩ | ⟨_, d, _, _, hd, _⟩
      · exact hf
      · simp only at hd
        rw [hnone] at hd
        cases hd

/-- Witness of C18: the second frame of `sampleReader` is in bounds and passes the
tests, and `getNext()` returns. -/
theorem getNext_returns_iff_witness :
    (0 ≤ (sampleReader1 false).currentFrame) ∧ (sampleReader1 false).currentFrame < 2147483647 ∧
    FrameInBounds (sampleReader1 false).numPixels (sampleColour 20 4 5 6)
      (sampleDepth 20 [12, 0, 0, 0]) (sampleDepth 10 [11, 0, 0, 0]) ∧
    ∃ s2, (sampleReader1 false).getNext sampleCvt = .ok s2 :=
  have hb : FrameInBounds (sampleReader1 false).numPixels (sampleColour 20 4 5 6)
      (sampleDepth 20 [12, 0, 0, 0]) (sampleDepth 10 [11, 0, 0, 0]) := by
    unfold FrameInBounds
    decide
  ⟨by decide, by decide, hb,
    (getNext_returns_iff sampleCvt (sampleReader1 false) (by decide) (by decide) rfl).2.1
      (sampleColour 20 4 5 6) (sampleDepth 20 [12, 0, 0, 0]) (sampleDepth 10 [11, 0, 0, 0])
      rfl rfl rfl (by decide) (by decide) (by decide) hb⟩

/-- C18 as stated fails: in `sampleShortDepthReader` the depth sequence is shorter than
the colour sequence, and still every cursor position of the reader at which `hasMore()`
is true lies inside both sequences, and `getNext()` returns there. -/
theorem hasMore_safe_with_shorter_depth :
    sampleShortDepthReader.log_rgbd_data.images_d.length
      < sampleShortDepthReader.log_rgbd_data.images_rgb.length ∧
    ∀ cf : Int, 0 ≤ cf → cf ≤ sampleShortDepthReader.numFrames →
      ROSBagReader.hasMore { sampleShortDepthReader with currentFrame := cf } = true →
      cf < (sampleShortDepthReader.log_rgbd_data.images_rgb.length : Int) ∧
      cf < (sampleShortDepthReader.log_rgbd_data.images_d.length : Int) ∧
      ∃ s2, ROSBagReader.getNext sampleCvt
        { sampleShortDepthReader with currentFrame := cf } = .ok s2 := by
  refine ⟨by decide, ?_⟩
  intro cf h0 hle hm
  have hnum : sampleShortDepthReader.numFrames = 2 := rfl
  rw [hnum] at hle
  rw [hasMore_eq_of_ne_max _ (by simp only; omega)] at hm
  simp only [decide_eq_true_eq, hnum] at hm
  have hcf : cf = 0 := by omega
  subst hcf
  exact ⟨by decide, by decide, _, rfl⟩


end ElasticFusion
